import Mathlib

/-!
Shallow embedding of the wallet-linking verification core of CollectEVM:
the `link-evm` commit handler, the `verify-solana` nonce/signature handler,
the nonce issue route, and the `nft-linkstatus` handler, together with the
storage-level uniqueness constraint on `LinkedNFT.tokenId`.

External collaborators (the EVM signature recovery of `ethers.verifyMessage`,
the Ed25519 check of `nacl.sign.detached.verify`, base58 decoding, the
Solana public-key parser, UTF-8 encoding and the on-chain ownership oracle)
are passed in as explicit function / value parameters, so every handler is a
pure function of its inputs and the database state.
-/

namespace CollectEVM

/-- An NFT as reported by the ownership oracle `getWassieverseNFTs`:
a mint address and the collection-scoped token id (a decimal string). -/
structure NFTInfo where
  mintAddress : String
  tokenId : String
deriving DecidableEq, Repr

/-- A row of the `LinkedNFT` table (prisma model `LinkedNFT`). -/
structure LinkedNFT where
  tokenId : String
  mintAddress : String
  solanaAddress : String
  evmAddress : String
  walletLinkId : Nat
  linkedAt : Nat
deriving DecidableEq, Repr

/-- A row of the `WalletLink` table, keyed by the unique pair
(solanaAddress, evmAddress). -/
structure WalletLink where
  id : Nat
  solanaAddress : String
  evmAddress : String
  tokenIds : List String
  solanaSignature : String
  evmSignature : String
  verifiedAt : Nat
  updatedAt : Nat
deriving DecidableEq, Repr

/-- A row of the `Nonce` table: the opaque token, the Solana address it was
issued for, expiry instant (ms), the consumed flag and creation instant. -/
structure NonceRow where
  nonce : String
  address : String
  expiresAt : Nat
  used : Bool
  createdAt : Nat
deriving DecidableEq, Repr

/-- The persisted state: the three relations of the data model plus a
counter used to mint fresh `WalletLink` ids. -/
structure DB where
  walletLinks : List WalletLink
  linkedNFTs : List LinkedNFT
  nonces : List NonceRow
  nextId : Nat
deriving DecidableEq, Repr

/-- The empty database. -/
def DB.empty : DB := ⟨[], [], [], 0⟩

/-- JavaScript string falsiness as used by the route guards: a field is
falsy when it is absent or the empty string. -/
def strFalsy (o : Option String) : Bool := (o.getD "") = ""

/-- Case normalization of EVM addresses (`toLowerCase()` in the routes),
written as a structural map over the characters so that it evaluates by
kernel reduction; addresses are ASCII hex strings. -/
def lowerStr (s : String) : String := ⟨s.data.map Char.toLower⟩

/-- The JSON body accepted by `POST /api/link-evm` (part_001 lines 19-28). -/
structure LinkRequest where
  solanaAddress : Option String
  evmAddress : Option String
  evmSignature : Option String
  message : Option String
  nonce : Option String
  solanaSignature : Option String
  selectedTokenIds : Option (List String)
  skipEvmSignature : Bool
deriving DecidableEq, Repr

/-- The distinguishable responses of `POST /api/link-evm`; each constructor
carries the HTTP status of the corresponding `NextResponse.json` call. -/
inductive LinkResp
  | missingFields                         -- 400, line 34
  | missingEvmSignature                   -- 400, line 51
  | nonceExpired                          -- 400, line 72
  | nonceNotVerified                      -- 400, line 79
  | invalidEvmSignature                   -- 400, line 97
  | evmVerifyFailed                       -- 400, line 104
  | noNFTsFound                           -- 404, line 119
  | oracleFailed                          -- 500, line 126
  | noneSelectedOwned                     -- 404, line 139
  | notOwned (missing : List String)      -- 403, line 148
  | alreadyLinked (ids : List String)     -- 409, line 183
  | serverError                           -- 500, line 330 (catch-all)
  | success (tokenIds : List String) (count : Nat)  -- 200, line 317
deriving DecidableEq, Repr

/-- Lookup of an existing `WalletLink` for an (already lowercased) EVM
address: `prisma.walletLink.findFirst` at part_001 lines 42-46. -/
def findEvmLink (db : DB) (evm : String) : Option WalletLink :=
  db.walletLinks.find? (fun w => decide (w.evmAddress = evm))

/-- Backward-compatibility nonce check of the link-evm handler (part_001
lines 57-86): only if a nonce was supplied, look it up for the claimed
Solana address; reject an expired or a not-yet-verified nonce; an unknown
nonce is allowed through. -/
def linkNonceCheck (req : LinkRequest) (nonces : List NonceRow)
    (now : Nat) (sol : String) : Except LinkResp Unit :=
  if !strFalsy req.nonce then
    match nonces.find? (fun r =>
        decide (r.nonce = req.nonce.getD "") &&
        decide (r.address = sol)) with
    | some r =>
      if decide (now > r.expiresAt) then .error .nonceExpired
      else if !r.used then .error .nonceNotVerified
      else .ok ()
    | none => .ok ()
  else .ok ()

/-- The EVM-signature requirement of part_001 line 48: a signature is
required unless the client set the skip flag or the EVM address already
has some WalletLink row. -/
def requiresEvmSignature (req : LinkRequest) (db : DB) : Bool :=
  !req.skipEvmSignature &&
    (findEvmLink db (lowerStr (req.evmAddress.getD ""))).isNone

/-- Validation phase of the link-evm handler (part_001 lines 30-111):
required fields, the first-time-EVM signature requirement, the optional
nonce check, and EVM signature recovery. On success it returns the Solana
address, the lowercased EVM address and the existing EVM link, if any. -/
def validatePhase (recover : String → String → Option String)
    (now : Nat) (req : LinkRequest) (db : DB) :
    Except LinkResp (String × String × Option WalletLink) :=
  if strFalsy req.solanaAddress || strFalsy req.evmAddress then
    .error .missingFields
  else if requiresEvmSignature req db &&
      (strFalsy req.evmSignature || strFalsy req.message) then
    .error .missingEvmSignature
  else
    match linkNonceCheck req db.nonces now (req.solanaAddress.getD "") with
    | .error e => .error e
    | .ok () =>
      if requiresEvmSignature req db then
        match recover (req.message.getD "") (req.evmSignature.getD "") with
        | none => .error .evmVerifyFailed
        | some rcv =>
          if decide (lowerStr rcv = lowerStr (req.evmAddress.getD "")) then
            .ok (req.solanaAddress.getD "", lowerStr (req.evmAddress.getD ""),
              findEvmLink db (lowerStr (req.evmAddress.getD "")))
          else .error .invalidEvmSignature
      else .ok (req.solanaAddress.getD "", lowerStr (req.evmAddress.getD ""),
        findEvmLink db (lowerStr (req.evmAddress.getD "")))

/-- The owned NFTs among a specific selection (part_001 line 136). -/
def selectedOwned (l : List String) (allNFTs : List NFTInfo) :
    List NFTInfo :=
  allNFTs.filter (fun nft => decide (nft.tokenId ∈ l))

/-- The selected tokenIds the caller does not own (part_001 line 146). -/
def missingIds (l : List String) (allNFTs : List NFTInfo) : List String :=
  l.filter (fun id =>
    !((selectedOwned l allNFTs).any (fun nft => decide (nft.tokenId = id))))

/-- Selection phase (part_001 lines 113-159, after the oracle returned
`allNFTs`): filter to the selected token ids and reject selections the
caller does not fully own. -/
def selectPhase (sel : Option (List String)) (allNFTs : List NFTInfo) :
    Except LinkResp (List NFTInfo) :=
  match sel with
  | some l =>
    if 0 < l.length then
      if (selectedOwned l allNFTs).isEmpty then .error .noneSelectedOwned
      else
        if !(missingIds l allNFTs).isEmpty then
          .error (.notOwned (missingIds l allNFTs))
        else .ok (selectedOwned l allNFTs)
    else .ok allNFTs
  | none => .ok allNFTs

/-- All phases of the link-evm handler before the global conflict check:
validation, the ownership-oracle query, and selection filtering. -/
def prePhase (recover : String → String → Option String)
    (oracle : Except Unit (List NFTInfo)) (now : Nat)
    (req : LinkRequest) (db : DB) :
    Except LinkResp (String × String × Option WalletLink × List NFTInfo) :=
  match validatePhase recover now req db with
  | .error e => .error e
  | .ok (sol, evm, existingEvmLink) =>
    match oracle with
    | .error _ => .error .oracleFailed
    | .ok allNFTs =>
      if allNFTs.isEmpty then .error .noNFTsFound
      else
        match selectPhase req.selectedTokenIds allNFTs with
        | .error e => .error e
        | .ok nfts => .ok (sol, evm, existingEvmLink, nfts)

/-- One insert into the `LinkedNFT` table under the storage-level
constraint. Modelled from the spec: the prisma schema file itself is not
under src/, but the repository's protection document quotes its
`@@unique([tokenId])` constraint on the `LinkedNFT` model, so an insert of
a row whose tokenId is already present fails with a uniqueness-violation
error and leaves the table unchanged. -/
def insertLinkedNFT (db : DB) (row : LinkedNFT) : Except DB DB :=
  if db.linkedNFTs.any (fun r => decide (r.tokenId = row.tokenId)) then
    .error db
  else
    .ok { db with linkedNFTs := row :: db.linkedNFTs }

/-- Insert one `LinkedNFT` row per NFT (part_001 lines 274-307); each
`prisma.linkedNFT.create` is subject to the unique constraint, and the
first violation rejects the whole awaited batch (the remaining rows of
this request are not inserted), carrying the partially updated state. -/
def insertAll (sol evm : String) (wlId now : Nat) :
    DB → List NFTInfo → Except DB DB
  | db, [] => .ok db
  | db, nft :: rest =>
    match insertLinkedNFT db ⟨nft.tokenId, nft.mintAddress, sol, evm, wlId, now⟩ with
    | .error dbBad => .error dbBad
    | .ok db1 => insertAll sol evm wlId now db1 rest

/-- Lookup of the `WalletLink` row keyed by the pair
(solanaAddress, evmAddress): `prisma.walletLink.findUnique` at part_001
lines 194-201. -/
def findPairLink (db : DB) (sol evm : String) : Option WalletLink :=
  db.walletLinks.find? (fun w =>
    decide (w.solanaAddress = sol) && decide (w.evmAddress = evm))

/-- The updated row written by the upsert's update branch (part_001 lines
207-225 and 251): new tokenIds and timestamp, and the signatures only when
supplied. -/
def updatedLink (req : LinkRequest) (now : Nat) (tokenIds : List String)
    (w : WalletLink) : WalletLink :=
  { w with
    tokenIds := tokenIds
    updatedAt := now
    solanaSignature :=
      if !strFalsy req.solanaSignature then req.solanaSignature.getD ""
      else w.solanaSignature
    evmSignature :=
      if !strFalsy req.evmSignature then req.evmSignature.getD ""
      else w.evmSignature }

/-- The audit signature stored by the upsert's create branch (part_001
lines 227-242, with `existingWalletLink = none` in that branch): the
supplied signature, else the signature of the EVM address's previous link,
else the empty string. -/
def createEvmSigOf (req : LinkRequest)
    (existingEvmLink : Option WalletLink) : String :=
  if !strFalsy req.evmSignature then req.evmSignature.getD ""
  else
    match existingEvmLink with
    | some e => e.evmSignature
    | none => ""

/-- The `prisma.walletLink.upsert` of part_001 lines 244-259, returning
the new state and the id of the upserted row. -/
def upsertWalletLink (req : LinkRequest) (now : Nat) (sol evm : String)
    (existingEvmLink : Option WalletLink) (tokenIds : List String)
    (db : DB) : DB × Nat :=
  match findPairLink db sol evm with
  | some w =>
    ({ db with walletLinks := db.walletLinks.map (fun x =>
        if decide (x.id = w.id) then updatedLink req now tokenIds w
        else x) }, w.id)
  | none =>
    let wl : WalletLink :=
      { id := db.nextId
        solanaAddress := sol
        evmAddress := evm
        tokenIds := tokenIds
        solanaSignature := req.solanaSignature.getD ""
        evmSignature := createEvmSigOf req existingEvmLink
        verifiedAt := now
        updatedAt := now }
    ({ db with walletLinks := wl :: db.walletLinks, nextId := db.nextId + 1 },
      db.nextId)

/-- The NFTs for which `LinkedNFT` rows are created (part_001 lines
261-308): for an existing pair link only the NFTs not already linked under
that `WalletLink`; for a fresh pair link all of them. -/
def toCreateList (existingWalletLink : Option WalletLink) (db1 : DB)
    (nfts : List NFTInfo) : List NFTInfo :=
  match existingWalletLink with
  | some w =>
    let existingTokenIds :=
      (db1.linkedNFTs.filter (fun r => decide (r.walletLinkId = w.id))).map
        (·.tokenId)
    nfts.filter (fun nft => decide (¬ nft.tokenId ∈ existingTokenIds))
  | none => nfts

/-- Final step of the commit: run the batched insert and build the
response. A uniqueness violation propagates to the handler's catch-all,
which responds 500 (`serverError`); on success the handler counts the NFTs
linked to the EVM address (part_001 lines 310-327). -/
def commitFinish (sol evm : String) (wlId now : Nat)
    (tokenIds : List String) (db1 : DB) (toCreate : List NFTInfo) :
    LinkResp × DB :=
  match insertAll sol evm wlId now db1 toCreate with
  | .error dbBad => (.serverError, dbBad)
  | .ok db2 =>
    (.success tokenIds
      ((db2.linkedNFTs.filter (fun r => decide (r.evmAddress = evm))).length),
      db2)

/-- Commit phase of the link-evm handler (part_001 lines 193-327): upsert
the `WalletLink` row keyed by (solanaAddress, evmAddress), then create the
`LinkedNFT` children, then count the NFTs linked to the EVM address. -/
def commitPhase (req : LinkRequest) (now : Nat) (sol evm : String)
    (existingEvmLink : Option WalletLink) (nfts : List NFTInfo)
    (db : DB) : LinkResp × DB :=
  let tokenIds := nfts.map (·.tokenId)
  let existingWalletLink := findPairLink db sol evm
  let upserted := upsertWalletLink req now sol evm existingEvmLink tokenIds db
  let toCreate := toCreateList existingWalletLink upserted.1 nfts
  commitFinish sol evm upserted.2 now tokenIds upserted.1 toCreate

/-- The rows hit by the global already-linked pre-check of part_001 lines
165-177: every `LinkedNFT` row, of any pair, whose tokenId occurs among
the tokenIds about to be committed. -/
def alreadyLinkedRows (db : DB) (tokenIds : List String) : List LinkedNFT :=
  db.linkedNFTs.filter (fun r => decide (r.tokenId ∈ tokenIds))

/-- The full `POST /api/link-evm` handler, with two database snapshots: all
reads up to and including the already-linked pre-check (part_001 lines
40-191) see `dbPre`, while the commit (lines 193-327) runs against `dbC`.
A sequential, uninterfered execution is the diagonal `dbPre = dbC`; a
concurrent writer between the pre-check and the inserts is modelled by
`dbC` differing from `dbPre`. -/
def linkEvmTwo (recover : String → String → Option String)
    (oracle : Except Unit (List NFTInfo)) (now : Nat)
    (req : LinkRequest) (dbPre dbC : DB) : LinkResp × DB :=
  match prePhase recover oracle now req dbPre with
  | .error e => (e, dbC)
  | .ok (sol, evm, existingEvmLink, nfts) =>
    if !(alreadyLinkedRows dbPre (nfts.map (·.tokenId))).isEmpty then
      (.alreadyLinked
        ((alreadyLinkedRows dbPre (nfts.map (·.tokenId))).map (·.tokenId)),
        dbC)
    else
      commitPhase req now sol evm existingEvmLink nfts dbC

/-- Sequential execution of `POST /api/link-evm` against a single database
snapshot. -/
def linkEvm (recover : String → String → Option String)
    (oracle : Except Unit (List NFTInfo)) (now : Nat)
    (req : LinkRequest) (db : DB) : LinkResp × DB :=
  linkEvmTwo recover oracle now req db db

/-- The 4-byte little-endian encoding of a message length, as built at
verify-solana route lines 96-101 (`len & 0xff`, `(len >> 8) & 0xff`, ...). -/
def le32 (n : Nat) : List Nat :=
  [n % 256, n / 2 ^ 8 % 256, n / 2 ^ 16 % 256, n / 2 ^ 24 % 256]

/-- The 4-byte big-endian encoding of a message length, as built at
verify-solana route lines 253-258. -/
def be32 (n : Nat) : List Nat :=
  [n / 2 ^ 24 % 256, n / 2 ^ 16 % 256, n / 2 ^ 8 % 256, n % 256]

/-- The ordered candidate payload encodings attempted by the verify-solana
route (methods 1, 1b, 2, 2b, 3, 4, 5, 6 at lines 88-291). `enc` is the
UTF-8 encoder (`TextEncoder.encode`); `mb` is the raw message byte array
used by methods 2, 2b and 6. -/
def solanaCandidates (enc : String → List Nat) (message : String)
    (mb : List Nat) : List (List Nat) :=
  let dom := enc "solana offchain"
  let mc := enc message
  [ dom ++ le32 mc.length ++ mc,
    [0] ++ dom ++ le32 mc.length ++ mc,
    mb,
    mb,
    dom ++ mc,
    [0] ++ dom ++ mc,
    dom ++ be32 mc.length ++ mc,
    mb ]

/-- The verification disjunction of the verify-solana route: the signature
is accepted when some candidate encoding verifies under Ed25519
(`edv payload signature publicKeyBytes`). -/
def solanaVerified (enc : String → List Nat)
    (edv : List Nat → List Nat → List Nat → Bool) (message : String)
    (mb sig pk : List Nat) : Bool :=
  (solanaCandidates enc message mb).any (fun c => edv c sig pk)

/-- The JSON body accepted by `POST /api/verify-solana` (route line 11). -/
structure VerifyReq where
  solAddress : Option String
  signature : Option String
  message : Option String
  messageBytes : Option (List Nat)
  nonce : Option String
deriving DecidableEq, Repr

/-- The distinguishable responses of `POST /api/verify-solana`; each
constructor carries the HTTP status of the corresponding response. -/
inductive VerifyResp
  | missingFields                 -- 400, line 14
  | invalidNonce                  -- 400, line 31
  | nonceUsed                     -- 400, line 38
  | nonceExpired                  -- 400, line 45
  | nonceAddressMismatch          -- 400, line 52
  | pubkeyError                   -- 400, outer catch lines 324-339
  | invalidSigFormat              -- 400, line 69
  | invalidSigLength              -- 400, line 78
  | invalidSignature              -- 400, line 317 (all methods failed)
  | fetchFailed                   -- 500, line 376
  | noNFTs                        -- 404, line 369
  | verified (tokenIds : List String)  -- 200, line 385
deriving DecidableEq, Repr

/-- The message bytes the raw-bytes verification methods check: the exact
client-supplied byte array when it was sent, otherwise the UTF-8 encoding
of the message string (verify-solana route lines 20-23). -/
def reqMessageBytes (enc : String → List Nat) (req : VerifyReq) : List Nat :=
  match req.messageBytes with
  | some bs => bs
  | none => enc (req.message.getD "")

/-- Mark the nonce row with the given token as used
(`prisma.nonce.update({where: {nonce}, data: {used: true}})`,
verify-solana route lines 342-346). -/
def markNonceUsed (db : DB) (n : String) : DB :=
  { db with nonces := db.nonces.map (fun r =>
      if decide (r.nonce = n) then { r with used := true } else r) }

/-- The full `POST /api/verify-solana` handler. External collaborators are
parameters: `enc` is UTF-8 encoding, `edv` the Ed25519 check, `d58` base58
decoding of the signature, `pk` the public-key parser, `oracle` the NFT
ownership query result, `now` the current instant in ms. -/
def verifySolana (enc : String → List Nat)
    (edv : List Nat → List Nat → List Nat → Bool)
    (d58 : String → Option (List Nat)) (pk : String → Option (List Nat))
    (oracle : Except Unit (List NFTInfo)) (now : Nat)
    (req : VerifyReq) (db : DB) : VerifyResp × DB :=
  if strFalsy req.solAddress || strFalsy req.signature ||
      strFalsy req.message || strFalsy req.nonce then
    (.missingFields, db)
  else
    match db.nonces.find? (fun r => decide (r.nonce = req.nonce.getD "")) with
    | none => (.invalidNonce, db)
    | some r =>
      if r.used then (.nonceUsed, db)
      else if decide (now > r.expiresAt) then (.nonceExpired, db)
      else if decide (¬ r.address = req.solAddress.getD "") then
        (.nonceAddressMismatch, db)
      else
        match pk (req.solAddress.getD "") with
        | none => (.pubkeyError, db)
        | some pkBytes =>
          match d58 (req.signature.getD "") with
          | none => (.invalidSigFormat, db)
          | some sig =>
            if decide (¬ sig.length = 64) then (.invalidSigLength, db)
            else if !solanaVerified enc edv (req.message.getD "")
                (reqMessageBytes enc req) sig pkBytes then
              (.invalidSignature, db)
            else
              match oracle with
              | .error _ => (.fetchFailed, markNonceUsed db (req.nonce.getD ""))
              | .ok nfts =>
                if nfts.isEmpty then
                  (.noNFTs, markNonceUsed db (req.nonce.getD ""))
                else (.verified (nfts.map (·.tokenId)),
                  markNonceUsed db (req.nonce.getD ""))

/-- The error outcomes of nonce consumption. -/
inductive NonceError
  | notFound
  | alreadyUsed
  | expired
  | addressMismatch
deriving DecidableEq, Repr

/-- Nonce consumption: the validation sequence of the verify-solana route
(lines 26-56, in the guard order of the code: unknown, already used,
expired, address mismatch) composed with the consumption update of lines
342-346 on success. -/
def consumeNonce (db : DB) (n a : String) (now : Nat) :
    Except NonceError DB :=
  match db.nonces.find? (fun r => decide (r.nonce = n)) with
  | none => .error .notFound
  | some r =>
    if r.used then .error .alreadyUsed
    else if decide (now > r.expiresAt) then .error .expired
    else if decide (¬ r.address = a) then .error .addressMismatch
    else .ok (markNonceUsed db n)

/-- Nonce issue (`POST /api/nonce`, part_002): store the freshly generated
random token with a fixed expiry of five minutes from now. -/
def issueNonce (db : DB) (nonceStr address : String) (now : Nat) : DB :=
  { db with nonces :=
      ⟨nonceStr, address, now + 5 * 60 * 1000, false, now⟩ :: db.nonces }

/-- A sequence of consume attempts on the same nonce token, returning the
number of successful consumptions and the final state. Each attempt
supplies the presenting address and its instant. -/
def consumeSeq (db : DB) (n : String) :
    List (String × Nat) → Nat × DB
  | [] => (0, db)
  | (a, t) :: rest =>
    match consumeNonce db n a t with
    | .ok db1 =>
      let r := consumeSeq db1 n rest
      (r.1 + 1, r.2)
    | .error _ => consumeSeq db n rest

/-- The responses of `POST /api/nft-linkstatus` after rate limiting:
400 for an out-of-range or non-integer tokenId, otherwise the link status
payload of route lines 102-112. -/
inductive LinkStatusResp
  | badRequest                    -- 400
  | ok (tokenId : String) (isLinked : Bool) (linkedTo : Option String)
      (solanaAddress : Option String) (linkedAt : Option Nat)
deriving DecidableEq, Repr

/-- The `POST /api/nft-linkstatus` handler from the tokenId validation on
(route lines 69-112). The JavaScript coercion of the raw payload value to
a number is abstracted as the input: `none` stands for a value that is not
an integer after coercion (`Number.isInteger` false). -/
def linkStatus (db : DB) (t : Option Int) : LinkStatusResp :=
  match t with
  | none => .badRequest
  | some n =>
    if decide (n < 0) || decide (n > 2999) then .badRequest
    else
      match db.linkedNFTs.find? (fun r => decide (r.tokenId = toString n)) with
      | some r => .ok (toString n) true (some r.evmAddress)
          (some r.solanaAddress) (some r.linkedAt)
      | none => .ok (toString n) false none none none

/-- Token-id uniqueness of the `LinkedNFT` table: any two rows with the
same tokenId are the same row. -/
def UniqueTok (db : DB) : Prop :=
  ∀ r1 ∈ db.linkedNFTs, ∀ r2 ∈ db.linkedNFTs,
    r1.tokenId = r2.tokenId → r1 = r2

/-- Apply a list of raw insert attempts (the only primitive operation of
any interleaving that writes the `LinkedNFT` table) in order; attempts
rejected by the unique constraint leave the state unchanged. -/
def applyInserts (db : DB) : List LinkedNFT → DB
  | [] => db
  | row :: rest =>
    match insertLinkedNFT db row with
    | .ok db1 => applyInserts db1 rest
    | .error _ => applyInserts db rest

/-! Concrete instantiations of the external collaborators and concrete
requests, used by the counterexample and witness theorems below. -/

/-- An EVM recoverer that always throws (never consulted on the skip
paths exercised below). -/
def recNone : String → String → Option String := fun _ _ => none

/-- An oracle reporting a single owned NFT with tokenId "5". -/
def oracleOne : Except Unit (List NFTInfo) := .ok [⟨"M5", "5"⟩]

/-- An oracle reporting owned NFTs with tokenIds "5" and "7". -/
def oracleTwo : Except Unit (List NFTInfo) := .ok [⟨"M5", "5"⟩, ⟨"M7", "7"⟩]

/-- An oracle reporting a single owned NFT with tokenId "7". -/
def oracleSeven : Except Unit (List NFTInfo) := .ok [⟨"M7", "7"⟩]

/-- An oracle reporting a single owned NFT with tokenId "2". -/
def oracleDeux : Except Unit (List NFTInfo) := .ok [⟨"M2", "2"⟩]

/-- A commit request linking all owned NFTs of Solana wallet S to EVM
address E with the client-side skip flag set. -/
def reqSkip : LinkRequest :=
  ⟨some "S", some "E", none, none, none, none, none, true⟩

/-- The database after `reqSkip` committed against the empty store:
tokenId "5" is linked to the pair (S, e). -/
def dbAfterFirst : DB := (linkEvm recNone oracleOne 0 reqSkip DB.empty).2

/-- A commit request by the different pair (S2, F). -/
def reqOther : LinkRequest :=
  ⟨some "S2", some "F", none, none, none, none, none, true⟩

/-- A commit request selecting specifically tokenId "1". -/
def reqSelOne : LinkRequest :=
  ⟨some "S", some "E", none, none, none, none, some ["1"], true⟩

/-- A commit request selecting tokenIds "1" and "2". -/
def reqSelMix : LinkRequest :=
  ⟨some "S", some "E", none, none, none, none, some ["1", "2"], true⟩

/-- A first-time commit request for the fresh EVM address E5 with the
skip flag set and no EVM signature or message. -/
def reqNoSig : LinkRequest :=
  ⟨some "S5", some "E5", none, none, none, none, none, true⟩

/-- A concrete stand-in byte encoder mapping a string to its code points. -/
def encChar : String → List Nat := fun s => s.toList.map Char.toNat

/-- An Ed25519 stand-in that rejects every payload. -/
def edvNever : List Nat → List Nat → List Nat → Bool := fun _ _ _ => false

/-- An Ed25519 stand-in that accepts exactly the payload [9, 9]. -/
def edvRaw : List Nat → List Nat → List Nat → Bool :=
  fun m _ _ => decide (m = [9, 9])

/-- A base58 decoder stand-in returning a fixed 64-byte signature. -/
def d58Stub : String → Option (List Nat) := fun _ => some (List.replicate 64 1)

/-- A public-key parser stand-in returning fixed 32 key bytes. -/
def pkStub : String → Option (List Nat) := fun _ => some (List.replicate 32 2)

/-- A database holding one fresh nonce "N" issued to address S at time 0. -/
def dbNonce : DB := issueNonce DB.empty "N" "S" 0

/-- A verify-ownership request for address S presenting nonce "N" with no
client-supplied message bytes. -/
def vreqStd : VerifyReq := ⟨some "S", some "sig", some "m", none, some "N"⟩

/-- The same request as `vreqStd` except that the client supplies the raw
message bytes [9, 9], unrelated to the displayed message "m". -/
def vreqBytes : VerifyReq :=
  ⟨some "S", some "sig", some "m", some [9, 9], some "N"⟩

/-! Shared lemmas about the primitive insert, the batched insert, and the
uniqueness invariant. -/

theorem insertLinkedNFT_ok_iff {db : DB} {row : LinkedNFT} {db1 : DB}
    (h : insertLinkedNFT db row = .ok db1) :
    db1 = { db with linkedNFTs := row :: db.linkedNFTs } ∧
    ∀ r ∈ db.linkedNFTs, ¬ r.tokenId = row.tokenId := by
  unfold insertLinkedNFT at h
  by_cases hc :
      db.linkedNFTs.any (fun r => decide (r.tokenId = row.tokenId)) = true
  · rw [if_pos hc] at h
    exact absurd h (by simp)
  · rw [if_neg hc] at h
    refine ⟨by cases h; rfl, ?_⟩
    intro r hr
    simp only [List.any_eq_true, decide_eq_true_eq, not_exists, not_and] at hc
    simpa using hc r hr

theorem insertLinkedNFT_error_iff {db : DB} {row : LinkedNFT} {dbBad : DB}
    (h : insertLinkedNFT db row = .error dbBad) :
    dbBad = db ∧ ∃ r ∈ db.linkedNFTs, r.tokenId = row.tokenId := by
  unfold insertLinkedNFT at h
  by_cases hc :
      db.linkedNFTs.any (fun r => decide (r.tokenId = row.tokenId)) = true
  · rw [if_pos hc] at h
    refine ⟨by cases h; rfl, ?_⟩
    simpa using hc
  · rw [if_neg hc] at h
    exact absurd h (by simp)

theorem insertAll_frame (sol evm : String) (wlId now : Nat) :
    ∀ (l : List NFTInfo) (db db2 : DB),
      (insertAll sol evm wlId now db l = .ok db2 ∨
        insertAll sol evm wlId now db l = .error db2) →
      db2.nonces = db.nonces ∧ db2.walletLinks = db.walletLinks ∧
        db2.nextId = db.nextId ∧
        ∀ r ∈ db.linkedNFTs, r ∈ db2.linkedNFTs := by
  intro l
  induction l with
  | nil =>
    intro db db2 h
    rcases h with h | h
    · cases h; exact ⟨rfl, rfl, rfl, fun r hr => hr⟩
    · exact absurd h (by simp [insertAll])
  | cons nft rest ih =>
    intro db db2 h
    have hmatch :
        insertAll sol evm wlId now db (nft :: rest) =
          match insertLinkedNFT db
              ⟨nft.tokenId, nft.mintAddress, sol, evm, wlId, now⟩ with
          | .error dbBad => .error dbBad
          | .ok db1 => insertAll sol evm wlId now db1 rest := rfl
    cases hins : insertLinkedNFT db
        ⟨nft.tokenId, nft.mintAddress, sol, evm, wlId, now⟩ with
    | error dbBad =>
      rw [hmatch, hins] at h
      have hdb : dbBad = db := (insertLinkedNFT_error_iff hins).1
      rcases h with h | h
      · exact absurd h (by simp)
      · cases h
        subst hdb
        exact ⟨rfl, rfl, rfl, fun r hr => hr⟩
    | ok db1 =>
      rw [hmatch, hins] at h
      have h1 := (insertLinkedNFT_ok_iff hins).1
      have h2 := ih db1 db2 h
      subst h1
      exact ⟨h2.1, h2.2.1, h2.2.2.1,
        fun r hr => h2.2.2.2 r (List.mem_cons_of_mem _ hr)⟩

theorem insertAll_ok_mem (sol evm : String) (wlId now : Nat) :
    ∀ (l : List NFTInfo) (db db2 : DB),
      insertAll sol evm wlId now db l = .ok db2 →
      ∀ nft ∈ l, ∃ r ∈ db2.linkedNFTs, r.tokenId = nft.tokenId := by
  intro l
  induction l with
  | nil => intro db db2 _ nft hn; cases hn
  | cons hd rest ih =>
    intro db db2 h nft hn
    have hmatch :
        insertAll sol evm wlId now db (hd :: rest) =
          match insertLinkedNFT db
              ⟨hd.tokenId, hd.mintAddress, sol, evm, wlId, now⟩ with
          | .error dbBad => .error dbBad
          | .ok db1 => insertAll sol evm wlId now db1 rest := rfl
    cases hins : insertLinkedNFT db
        ⟨hd.tokenId, hd.mintAddress, sol, evm, wlId, now⟩ with
    | error dbBad =>
      rw [hmatch, hins] at h
      exact absurd h (by simp)
    | ok db1 =>
      rw [hmatch, hins] at h
      have h1 := (insertLinkedNFT_ok_iff hins).1
      rcases List.mem_cons.mp hn with rfl | hrest
      · have hmem : (⟨nft.tokenId, nft.mintAddress, sol, evm, wlId, now⟩ :
            LinkedNFT) ∈ db1.linkedNFTs := by
          subst h1; exact List.mem_cons_self _ _
        exact ⟨_, (insertAll_frame sol evm wlId now rest db1 db2
          (Or.inl h)).2.2.2 _ hmem, rfl⟩
      · exact ih db1 db2 h nft hrest

theorem insertAll_error_of_linked (sol evm : String) (wlId now : Nat) :
    ∀ (l : List NFTInfo) (db : DB),
      (∃ nft ∈ l, ∃ r ∈ db.linkedNFTs, r.tokenId = nft.tokenId) →
      ∃ dbBad, insertAll sol evm wlId now db l = .error dbBad := by
  intro l
  induction l with
  | nil =>
    intro db h
    obtain ⟨nft, hn, _⟩ := h
    cases hn
  | cons hd rest ih =>
    intro db h
    have hmatch :
        insertAll sol evm wlId now db (hd :: rest) =
          match insertLinkedNFT db
              ⟨hd.tokenId, hd.mintAddress, sol, evm, wlId, now⟩ with
          | .error dbBad => .error dbBad
          | .ok db1 => insertAll sol evm wlId now db1 rest := rfl
    cases hins : insertLinkedNFT db
        ⟨hd.tokenId, hd.mintAddress, sol, evm, wlId, now⟩ with
    | error dbBad => exact ⟨dbBad, by rw [hmatch, hins]⟩
    | ok db1 =>
      have h1 := (insertLinkedNFT_ok_iff hins).1
      have h2 := (insertLinkedNFT_ok_iff hins).2
      obtain ⟨nft, hn, r, hr, htok⟩ := h
      rcases List.mem_cons.mp hn with rfl | hrest
      · exact absurd htok (by simpa using h2 r hr)
      · obtain ⟨dbBad, hbad⟩ := ih db1 ⟨nft, hrest, r, by
          subst h1; exact List.mem_cons_of_mem _ hr, htok⟩
        exact ⟨dbBad, by rw [hmatch, hins]; exact hbad⟩

theorem insertAll_ok_of_fresh (sol evm : String) (wlId now : Nat) :
    ∀ (l : List NFTInfo) (db : DB),
      (l.map NFTInfo.tokenId).Nodup →
      (∀ nft ∈ l, ∀ r ∈ db.linkedNFTs, ¬ r.tokenId = nft.tokenId) →
      ∃ db2, insertAll sol evm wlId now db l = .ok db2 := by
  intro l
  induction l with
  | nil => intro db _ _; exact ⟨db, rfl⟩
  | cons hd rest ih =>
    intro db hnd hfresh
    have hmatch :
        insertAll sol evm wlId now db (hd :: rest) =
          match insertLinkedNFT db
              ⟨hd.tokenId, hd.mintAddress, sol, evm, wlId, now⟩ with
          | .error dbBad => .error dbBad
          | .ok db1 => insertAll sol evm wlId now db1 rest := rfl
    cases hins : insertLinkedNFT db
        ⟨hd.tokenId, hd.mintAddress, sol, evm, wlId, now⟩ with
    | error dbBad =>
      obtain ⟨_, r, hr, htok⟩ := insertLinkedNFT_error_iff hins
      exact absurd htok (hfresh hd (List.mem_cons_self _ _) r hr)
    | ok db1 =>
      have h1 := (insertLinkedNFT_ok_iff hins).1
      have hcons : (hd.tokenId :: rest.map NFTInfo.tokenId).Nodup := by
        simpa using hnd
      have hhd : ∀ x ∈ rest, ¬ hd.tokenId = x.tokenId := by
        intro x hx hcontra
        exact (List.nodup_cons.mp hcons).1
          (hcontra ▸ List.mem_map_of_mem NFTInfo.tokenId hx)
      have hnd2 : (rest.map NFTInfo.tokenId).Nodup :=
        (List.nodup_cons.mp hcons).2
      have hfresh2 : ∀ nft ∈ rest, ∀ r ∈ db1.linkedNFTs,
          ¬ r.tokenId = nft.tokenId := by
        intro nft hn r hr
        subst h1
        rcases List.mem_cons.mp hr with rfl | hold
        · intro hne
          exact hhd nft hn (by simpa using hne)
        · exact hfresh nft (List.mem_cons_of_mem _ hn) r hold
      obtain ⟨db2, hok⟩ := ih db1 hnd2 hfresh2
      exact ⟨db2, by rw [hmatch, hins]; exact hok⟩

theorem uniqueTok_insertLinkedNFT {db : DB} {row : LinkedNFT} {db1 : DB}
    (h : insertLinkedNFT db row = .ok db1) (hu : UniqueTok db) :
    UniqueTok db1 := by
  obtain ⟨h1, h2⟩ := insertLinkedNFT_ok_iff h
  subst h1
  intro r1 hr1 r2 hr2 htok
  rcases List.mem_cons.mp hr1 with rfl | hm1 <;>
    rcases List.mem_cons.mp hr2 with rfl | hm2
  · rfl
  · exact absurd htok.symm (h2 r2 hm2)
  · exact absurd htok (h2 r1 hm1)
  · exact hu r1 hm1 r2 hm2 htok

theorem uniqueTok_insertAll (sol evm : String) (wlId now : Nat) :
    ∀ (l : List NFTInfo) (db db2 : DB),
      (insertAll sol evm wlId now db l = .ok db2 ∨
        insertAll sol evm wlId now db l = .error db2) →
      UniqueTok db → UniqueTok db2 := by
  intro l
  induction l with
  | nil =>
    intro db db2 h hu
    rcases h with h | h
    · cases h; exact hu
    · exact absurd h (by simp [insertAll])
  | cons hd rest ih =>
    intro db db2 h hu
    have hmatch :
        insertAll sol evm wlId now db (hd :: rest) =
          match insertLinkedNFT db
              ⟨hd.tokenId, hd.mintAddress, sol, evm, wlId, now⟩ with
          | .error dbBad => .error dbBad
          | .ok db1 => insertAll sol evm wlId now db1 rest := rfl
    cases hins : insertLinkedNFT db
        ⟨hd.tokenId, hd.mintAddress, sol, evm, wlId, now⟩ with
    | error dbBad =>
      rw [hmatch, hins] at h
      rcases h with h | h
      · exact absurd h (by simp)
      · cases h
        have := (insertLinkedNFT_error_iff hins).1
        subst this
        exact hu
    | ok db1 =>
      rw [hmatch, hins] at h
      exact ih db1 db2 h (uniqueTok_insertLinkedNFT hins hu)

theorem uniqueTok_applyInserts :
    ∀ (ops : List LinkedNFT) (db : DB),
      UniqueTok db → UniqueTok (applyInserts db ops) := by
  intro ops
  induction ops with
  | nil => intro db hu; exact hu
  | cons row rest ih =>
    intro db hu
    have hmatch :
        applyInserts db (row :: rest) =
          match insertLinkedNFT db row with
          | .ok db1 => applyInserts db1 rest
          | .error _ => applyInserts db rest := rfl
    cases hins : insertLinkedNFT db row with
    | ok db1 =>
      rw [hmatch, hins]
      exact ih db1 (uniqueTok_insertLinkedNFT hins hu)
    | error dbBad =>
      rw [hmatch, hins]
      exact ih db hu

/-! Lemmas about the commit phase. -/

theorem commitPhase_eq (req : LinkRequest) (now : Nat) (sol evm : String)
    (ex : Option WalletLink) (nfts : List NFTInfo) (db : DB) :
    commitPhase req now sol evm ex nfts db =
      commitFinish sol evm
        (upsertWalletLink req now sol evm ex (nfts.map (·.tokenId)) db).2 now
        (nfts.map (·.tokenId))
        (upsertWalletLink req now sol evm ex (nfts.map (·.tokenId)) db).1
        (toCreateList (findPairLink db sol evm)
          (upsertWalletLink req now sol evm ex (nfts.map (·.tokenId)) db).1
          nfts) := rfl

theorem upsertWalletLink_state (req : LinkRequest) (now : Nat)
    (sol evm : String) (ex : Option WalletLink) (tokenIds : List String)
    (db : DB) :
    (upsertWalletLink req now sol evm ex tokenIds db).1.linkedNFTs =
        db.linkedNFTs ∧
    (upsertWalletLink req now sol evm ex tokenIds db).1.nonces = db.nonces ∧
    ∃ w ∈ (upsertWalletLink req now sol evm ex tokenIds db).1.walletLinks,
      w.solanaAddress = sol ∧ w.evmAddress = evm := by
  unfold upsertWalletLink
  cases hfind : findPairLink db sol evm with
  | some w =>
    have hp := List.find?_some hfind
    have hmem := List.mem_of_find?_eq_some hfind
    simp only [Bool.and_eq_true, decide_eq_true_eq] at hp
    refine ⟨rfl, rfl, updatedLink req now tokenIds w, ?_, ?_, ?_⟩
    · have : (if decide (w.id = w.id) then updatedLink req now tokenIds w
          else w) = updatedLink req now tokenIds w := by simp
      simpa [this] using List.mem_map_of_mem
        (fun x => if decide (x.id = w.id) then updatedLink req now tokenIds w
          else x) hmem
    · simpa [updatedLink] using hp.1
    · simpa [updatedLink] using hp.2
  | none =>
    exact ⟨rfl, rfl, _, List.mem_cons_self _ _, rfl, rfl⟩

theorem commitFinish_state (sol evm : String) (wlId now : Nat)
    (tokenIds : List String) (db1 : DB) (toCreate : List NFTInfo) :
    (commitFinish sol evm wlId now tokenIds db1 toCreate).2.nonces =
        db1.nonces ∧
    (commitFinish sol evm wlId now tokenIds db1 toCreate).2.walletLinks =
        db1.walletLinks ∧
    (∀ r ∈ db1.linkedNFTs,
      r ∈ (commitFinish sol evm wlId now tokenIds db1 toCreate).2.linkedNFTs) ∧
    (UniqueTok db1 →
      UniqueTok (commitFinish sol evm wlId now tokenIds db1 toCreate).2) := by
  unfold commitFinish
  cases hins : insertAll sol evm wlId now db1 toCreate with
  | error dbBad =>
    have h := insertAll_frame sol evm wlId now toCreate db1 dbBad (Or.inr hins)
    exact ⟨h.1, h.2.1, h.2.2.2, fun hu =>
      uniqueTok_insertAll sol evm wlId now toCreate db1 dbBad (Or.inr hins) hu⟩
  | ok db2 =>
    have h := insertAll_frame sol evm wlId now toCreate db1 db2 (Or.inl hins)
    exact ⟨h.1, h.2.1, h.2.2.2, fun hu =>
      uniqueTok_insertAll sol evm wlId now toCreate db1 db2 (Or.inl hins) hu⟩

theorem commitFinish_success_inv {sol evm : String} {wlId now : Nat}
    {tokenIds tk : List String} {db1 : DB} {toCreate : List NFTInfo}
    {c : Nat} {db2 : DB}
    (h : commitFinish sol evm wlId now tokenIds db1 toCreate =
      (.success tk c, db2)) :
    insertAll sol evm wlId now db1 toCreate = .ok db2 ∧ tk = tokenIds := by
  unfold commitFinish at h
  cases hins : insertAll sol evm wlId now db1 toCreate with
  | error dbBad =>
    rw [hins] at h
    exact absurd (congrArg Prod.fst h) (by simp)
  | ok db2x =>
    rw [hins] at h
    rw [Prod.mk.injEq] at h
    obtain ⟨h1, h2⟩ := h
    rw [LinkResp.success.injEq] at h1
    exact ⟨congrArg Except.ok h2, h1.1.symm⟩

theorem commitFinish_error_of_linked (sol evm : String) (wlId now : Nat)
    (tokenIds : List String) (db1 : DB) (toCreate : List NFTInfo)
    (h : ∃ nft ∈ toCreate, ∃ r ∈ db1.linkedNFTs, r.tokenId = nft.tokenId) :
    (commitFinish sol evm wlId now tokenIds db1 toCreate).1 =
      .serverError := by
  obtain ⟨dbBad, hbad⟩ := insertAll_error_of_linked sol evm wlId now toCreate db1 h
  unfold commitFinish
  rw [hbad]

theorem commitFinish_ok_of_fresh (sol evm : String) (wlId now : Nat)
    (tokenIds : List String) (db1 : DB) (toCreate : List NFTInfo)
    (hnd : (toCreate.map NFTInfo.tokenId).Nodup)
    (hfresh : ∀ nft ∈ toCreate, ∀ r ∈ db1.linkedNFTs,
      ¬ r.tokenId = nft.tokenId) :
    ∃ c db2, commitFinish sol evm wlId now tokenIds db1 toCreate =
      (.success tokenIds c, db2) := by
  obtain ⟨db2, hok⟩ := insertAll_ok_of_fresh sol evm wlId now toCreate db1 hnd hfresh
  exact ⟨(db2.linkedNFTs.filter (fun r => decide (r.evmAddress = evm))).length,
    db2, by unfold commitFinish; rw [hok]⟩

theorem toCreateList_sub (ex : Option WalletLink) (db1 : DB)
    (nfts : List NFTInfo) :
    ∀ nft ∈ toCreateList ex db1 nfts, nft ∈ nfts := by
  intro nft hn
  cases ex with
  | some w =>
    simp only [toCreateList] at hn
    exact (List.mem_filter.mp hn).1
  | none => simpa [toCreateList] using hn

theorem toCreateList_covered (ex : Option WalletLink) (db1 : DB)
    (nfts : List NFTInfo) :
    ∀ nft ∈ nfts, nft ∈ toCreateList ex db1 nfts ∨
      ∃ r ∈ db1.linkedNFTs, r.tokenId = nft.tokenId := by
  intro nft hn
  cases ex with
  | some w =>
    by_cases hp : nft.tokenId ∈
        (db1.linkedNFTs.filter
          (fun r => decide (r.walletLinkId = w.id))).map (·.tokenId)
    · right
      obtain ⟨r, hr, htok⟩ := List.mem_map.mp hp
      exact ⟨r, (List.mem_filter.mp hr).1, htok⟩
    · left
      simp only [toCreateList]
      refine List.mem_filter.mpr ⟨hn, ?_⟩
      simpa using hp
  | none => exact Or.inl (by simpa [toCreateList] using hn)

theorem commitPhase_state (req : LinkRequest) (now : Nat) (sol evm : String)
    (ex : Option WalletLink) (nfts : List NFTInfo) (db : DB) :
    (commitPhase req now sol evm ex nfts db).2.nonces = db.nonces ∧
    (∀ r ∈ db.linkedNFTs,
      r ∈ (commitPhase req now sol evm ex nfts db).2.linkedNFTs) ∧
    (UniqueTok db → UniqueTok (commitPhase req now sol evm ex nfts db).2) ∧
    (∃ w ∈ (commitPhase req now sol evm ex nfts db).2.walletLinks,
      w.solanaAddress = sol ∧ w.evmAddress = evm) := by
  rw [commitPhase_eq]
  have hup := upsertWalletLink_state req now sol evm ex (nfts.map (·.tokenId)) db
  have hfin := commitFinish_state sol evm
    (upsertWalletLink req now sol evm ex (nfts.map (·.tokenId)) db).2 now
    (nfts.map (·.tokenId))
    (upsertWalletLink req now sol evm ex (nfts.map (·.tokenId)) db).1
    (toCreateList (findPairLink db sol evm)
      (upsertWalletLink req now sol evm ex (nfts.map (·.tokenId)) db).1 nfts)
  refine ⟨hfin.1.trans hup.2.1, ?_, ?_, ?_⟩
  · intro r hr
    exact hfin.2.2.1 r (hup.1 ▸ hr)
  · intro hu
    refine hfin.2.2.2 ?_
    unfold UniqueTok
    rw [hup.1]
    exact hu
  · obtain ⟨w, hw, hws, hwe⟩ := hup.2.2
    exact ⟨w, hfin.2.1 ▸ hw, hws, hwe⟩

theorem commitPhase_success_linked {req : LinkRequest} {now : Nat}
    {sol evm : String} {ex : Option WalletLink} {nfts : List NFTInfo}
    {db : DB} {tk : List String} {c : Nat} {db2 : DB}
    (h : commitPhase req now sol evm ex nfts db = (.success tk c, db2)) :
    tk = nfts.map (·.tokenId) ∧
    ∀ nft ∈ nfts, ∃ r ∈ db2.linkedNFTs, r.tokenId = nft.tokenId := by
  rw [commitPhase_eq] at h
  obtain ⟨hins, htk⟩ := commitFinish_success_inv h
  have hup := upsertWalletLink_state req now sol evm ex (nfts.map (·.tokenId)) db
  refine ⟨htk, ?_⟩
  intro nft hn
  rcases toCreateList_covered (findPairLink db sol evm)
      (upsertWalletLink req now sol evm ex (nfts.map (·.tokenId)) db).1 nfts
      nft hn with hin | ⟨r, hr, htok⟩
  · exact insertAll_ok_mem sol evm _ now _ _ db2 hins nft hin
  · exact ⟨r, (insertAll_frame sol evm _ now _ _ db2 (Or.inl hins)).2.2.2 r hr,
      htok⟩

theorem commitPhase_ok_of_fresh (req : LinkRequest) (now : Nat)
    (sol evm : String) (ex : Option WalletLink) (nfts : List NFTInfo)
    (db : DB) (hnd : (nfts.map NFTInfo.tokenId).Nodup)
    (hfresh : ∀ nft ∈ nfts, ∀ r ∈ db.linkedNFTs, ¬ r.tokenId = nft.tokenId) :
    ∃ c db2, commitPhase req now sol evm ex nfts db =
      (.success (nfts.map (·.tokenId)) c, db2) := by
  rw [commitPhase_eq]
  have hup := upsertWalletLink_state req now sol evm ex (nfts.map (·.tokenId)) db
  apply commitFinish_ok_of_fresh
  · have hsub : toCreateList (findPairLink db sol evm)
        (upsertWalletLink req now sol evm ex (nfts.map (·.tokenId)) db).1 nfts
        = nfts ∨
        ∃ p, toCreateList (findPairLink db sol evm)
          (upsertWalletLink req now sol evm ex (nfts.map (·.tokenId)) db).1
          nfts = nfts.filter p := by
      cases findPairLink db sol evm with
      | some w => exact Or.inr ⟨_, rfl⟩
      | none => exact Or.inl rfl
    rcases hsub with hsub | ⟨p, hsub⟩
    · rw [hsub]; exact hnd
    · rw [hsub]
      exact hnd.sublist ((List.filter_sublist nfts).map NFTInfo.tokenId)
  · intro nft hn r hr
    exact hfresh nft (toCreateList_sub _ _ nfts nft hn) r (hup.1 ▸ hr)

theorem commitPhase_serverError_of_raced (req : LinkRequest) (now : Nat)
    (sol evm : String) (ex : Option WalletLink) (nfts : List NFTInfo)
    (db : DB) (hnolink : findPairLink db sol evm = none)
    (hlinked : ∃ nft ∈ nfts, ∃ r ∈ db.linkedNFTs, r.tokenId = nft.tokenId) :
    (commitPhase req now sol evm ex nfts db).1 = .serverError := by
  rw [commitPhase_eq, hnolink]
  have hup := upsertWalletLink_state req now sol evm ex (nfts.map (·.tokenId)) db
  apply commitFinish_error_of_linked
  obtain ⟨nft, hn, r, hr, htok⟩ := hlinked
  exact ⟨nft, by simpa [toCreateList] using hn, r, hup.1 ▸ hr, htok⟩

/-! Lemmas about the validation, oracle and selection phases, and about
the full handler. -/

theorem linkEvmTwo_of_error {recover : String → String → Option String}
    {oracle : Except Unit (List NFTInfo)} {now : Nat} {req : LinkRequest}
    {dbPre dbC : DB} {e : LinkResp}
    (h : prePhase recover oracle now req dbPre = .error e) :
    linkEvmTwo recover oracle now req dbPre dbC = (e, dbC) := by
  unfold linkEvmTwo
  rw [h]

theorem linkEvmTwo_of_ok {recover : String → String → Option String}
    {oracle : Except Unit (List NFTInfo)} {now : Nat} {req : LinkRequest}
    {dbPre dbC : DB} {sol evm : String} {ex : Option WalletLink}
    {nfts : List NFTInfo}
    (h : prePhase recover oracle now req dbPre = .ok (sol, evm, ex, nfts)) :
    linkEvmTwo recover oracle now req dbPre dbC =
      if !(alreadyLinkedRows dbPre (nfts.map (·.tokenId))).isEmpty then
        (.alreadyLinked
          ((alreadyLinkedRows dbPre (nfts.map (·.tokenId))).map (·.tokenId)),
          dbC)
      else commitPhase req now sol evm ex nfts dbC := by
  unfold linkEvmTwo
  rw [h]

theorem validatePhase_ok_inv {recover : String → String → Option String}
    {now : Nat} {req : LinkRequest} {db : DB} {sol evm : String}
    {ex : Option WalletLink}
    (h : validatePhase recover now req db = .ok (sol, evm, ex)) :
    (strFalsy req.solanaAddress || strFalsy req.evmAddress) = false ∧
    sol = req.solanaAddress.getD "" ∧
    evm = lowerStr (req.evmAddress.getD "") ∧
    ex = findEvmLink db (lowerStr (req.evmAddress.getD "")) ∧
    linkNonceCheck req db.nonces now (req.solanaAddress.getD "") = .ok () := by
  unfold validatePhase at h
  by_cases h1 : (strFalsy req.solanaAddress || strFalsy req.evmAddress) = true
  · rw [if_pos h1] at h
    exact absurd h (by simp)
  · rw [if_neg h1] at h
    by_cases h2 : (requiresEvmSignature req db &&
        (strFalsy req.evmSignature || strFalsy req.message)) = true
    · rw [if_pos h2] at h
      exact absurd h (by simp)
    · rw [if_neg h2] at h
      cases hn : linkNonceCheck req db.nonces now (req.solanaAddress.getD "") with
      | error e =>
        rw [hn] at h
        exact absurd h (by simp)
      | ok u =>
        cases u
        rw [hn] at h
        dsimp only at h
        refine ⟨Bool.of_not_eq_true h1, ?_⟩
        by_cases h3 : requiresEvmSignature req db = true
        · rw [if_pos h3] at h
          cases hr : recover (req.message.getD "") (req.evmSignature.getD "") with
          | none =>
            rw [hr] at h
            exact absurd h (by simp)
          | some rcv =>
            rw [hr] at h
            dsimp only at h
            by_cases h4 :
                decide (lowerStr rcv = lowerStr (req.evmAddress.getD "")) = true
            · rw [if_pos h4] at h
              have := Except.ok.inj h
              rw [Prod.mk.injEq, Prod.mk.injEq] at this
              exact ⟨this.1.symm, this.2.1.symm, this.2.2.symm, rfl⟩
            · rw [if_neg h4] at h
              exact absurd h (by simp)
        · rw [if_neg h3] at h
          have := Except.ok.inj h
          rw [Prod.mk.injEq, Prod.mk.injEq] at this
          exact ⟨this.1.symm, this.2.1.symm, this.2.2.symm, rfl⟩

theorem validatePhase_ok_of_linked {recover : String → String → Option String}
    {now : Nat} {req : LinkRequest} {db : DB} {w : WalletLink}
    (h1 : (strFalsy req.solanaAddress || strFalsy req.evmAddress) = false)
    (hfind : findEvmLink db (lowerStr (req.evmAddress.getD "")) = some w)
    (hn : linkNonceCheck req db.nonces now (req.solanaAddress.getD "") =
      .ok ()) :
    validatePhase recover now req db =
      .ok (req.solanaAddress.getD "", lowerStr (req.evmAddress.getD ""),
        some w) := by
  have hreq : requiresEvmSignature req db = false := by
    unfold requiresEvmSignature
    rw [hfind]
    simp
  unfold validatePhase
  rw [hreq, hn, hfind]
  simp [h1]

theorem prePhase_ok_inv {recover : String → String → Option String}
    {oracle : Except Unit (List NFTInfo)} {now : Nat} {req : LinkRequest}
    {db : DB} {sol evm : String} {ex : Option WalletLink}
    {nfts : List NFTInfo}
    (h : prePhase recover oracle now req db = .ok (sol, evm, ex, nfts)) :
    validatePhase recover now req db = .ok (sol, evm, ex) ∧
    ∃ allNFTs, oracle = .ok allNFTs ∧ allNFTs.isEmpty = false ∧
      selectPhase req.selectedTokenIds allNFTs = .ok nfts := by
  unfold prePhase at h
  cases hv : validatePhase recover now req db with
  | error e =>
    rw [hv] at h
    exact absurd h (by simp)
  | ok trip =>
    obtain ⟨s0, e0, x0⟩ := trip
    rw [hv] at h
    dsimp only at h
    cases oracle with
    | error u =>
      exact absurd h (by simp)
    | ok allNFTs =>
      dsimp only at h
      by_cases he : allNFTs.isEmpty = true
      · rw [if_pos he] at h
        exact absurd h (by simp)
      · rw [if_neg he] at h
        cases hs : selectPhase req.selectedTokenIds allNFTs with
        | error e =>
          rw [hs] at h
          exact absurd h (by simp)
        | ok nfts0 =>
          rw [hs] at h
          dsimp only at h
          have := Except.ok.inj h
          rw [Prod.mk.injEq, Prod.mk.injEq, Prod.mk.injEq] at this
          obtain ⟨hs0, he0, hx0, hn0⟩ := this
          subst hs0; subst he0; subst hx0; subst hn0
          exact ⟨rfl, allNFTs, rfl, Bool.of_not_eq_true he, hs⟩

theorem prePhase_ok_of_phases {recover : String → String → Option String}
    {oracle : Except Unit (List NFTInfo)} {now : Nat} {req : LinkRequest}
    {db : DB} {sol evm : String} {ex : Option WalletLink}
    {allNFTs nfts : List NFTInfo}
    (hv : validatePhase recover now req db = .ok (sol, evm, ex))
    (ho : oracle = .ok allNFTs) (hne : allNFTs.isEmpty = false)
    (hs : selectPhase req.selectedTokenIds allNFTs = .ok nfts) :
    prePhase recover oracle now req db = .ok (sol, evm, ex, nfts) := by
  unfold prePhase
  simp [hv, ho, hne, hs]

theorem selectPhase_ok_ne_nil {sel : Option (List String)}
    {allNFTs nfts : List NFTInfo} (hne : allNFTs.isEmpty = false)
    (h : selectPhase sel allNFTs = .ok nfts) : nfts.isEmpty = false := by
  unfold selectPhase at h
  cases sel with
  | none =>
    cases h
    exact hne
  | some l =>
    dsimp only at h
    by_cases hl : 0 < l.length
    · rw [if_pos hl] at h
      by_cases hf : (selectedOwned l allNFTs).isEmpty = true
      · rw [if_pos hf] at h
        exact absurd h (by simp)
      · rw [if_neg hf] at h
        by_cases hm : (missingIds l allNFTs).isEmpty = true
        · rw [hm] at h
          simp only [Bool.not_true, Bool.false_eq_true, if_false] at h
          cases h
          exact Bool.of_not_eq_true hf
        · rw [Bool.not_eq_true] at hm
          rw [hm] at h
          simp only [Bool.not_false, if_true] at h
          exact absurd h (by simp)
    · rw [if_neg hl] at h
      cases h
      exact hne

theorem linkEvm_preserves_rows (recover : String → String → Option String)
    (oracle : Except Unit (List NFTInfo)) (now : Nat) (req : LinkRequest)
    (db : DB) :
    ∀ r ∈ db.linkedNFTs,
      r ∈ (linkEvm recover oracle now req db).2.linkedNFTs := by
  intro r hr
  unfold linkEvm
  cases hpre : prePhase recover oracle now req db with
  | error e =>
    rw [linkEvmTwo_of_error hpre]
    exact hr
  | ok quad =>
    obtain ⟨sol, evm, ex, nfts⟩ := quad
    rw [linkEvmTwo_of_ok hpre]
    by_cases hc : (!(alreadyLinkedRows db (nfts.map (·.tokenId))).isEmpty) = true
    · rw [if_pos hc]
      exact hr
    · rw [if_neg hc]
      exact (commitPhase_state req now sol evm ex nfts db).2.1 r hr

theorem linkEvm_uniqueTok (recover : String → String → Option String)
    (oracle : Except Unit (List NFTInfo)) (now : Nat) (req : LinkRequest)
    (db : DB) (hu : UniqueTok db) :
    UniqueTok (linkEvm recover oracle now req db).2 := by
  unfold linkEvm
  cases hpre : prePhase recover oracle now req db with
  | error e =>
    rw [linkEvmTwo_of_error hpre]
    exact hu
  | ok quad =>
    obtain ⟨sol, evm, ex, nfts⟩ := quad
    rw [linkEvmTwo_of_ok hpre]
    by_cases hc : (!(alreadyLinkedRows db (nfts.map (·.tokenId))).isEmpty) = true
    · rw [if_pos hc]
      exact hu
    · rw [if_neg hc]
      exact (commitPhase_state req now sol evm ex nfts db).2.2.1 hu

/-! Lemmas about nonce consumption. -/

theorem find?_markUsed_list (n : String) (l : List NonceRow) :
    (l.map (fun r => if decide (r.nonce = n) then { r with used := true }
      else r)).find? (fun r => decide (r.nonce = n)) =
      (l.find? (fun r => decide (r.nonce = n))).map
        (fun r => { r with used := true }) := by
  induction l with
  | nil => simp
  | cons r rest ih =>
    by_cases h : r.nonce = n
    · rw [List.map_cons, if_pos (by simpa using h),
        List.find?_cons_of_pos _ (by simpa using h),
        List.find?_cons_of_pos _ (by simpa using h)]
      rfl
    · rw [List.map_cons, if_neg (by simpa using h),
        List.find?_cons_of_neg _ (by simpa using h),
        List.find?_cons_of_neg _ (by simpa using h)]
      exact ih

theorem find?_markNonceUsed {db : DB} {n : String} {r : NonceRow}
    (hfind : db.nonces.find? (fun x => decide (x.nonce = n)) = some r) :
    (markNonceUsed db n).nonces.find? (fun x => decide (x.nonce = n)) =
      some { r with used := true } := by
  show (db.nonces.map _).find? _ = _
  rw [find?_markUsed_list, hfind]
  rfl

theorem consumeNonce_ok_inv {db : DB} {n a : String} {t : Nat} {db1 : DB}
    (h : consumeNonce db n a t = .ok db1) :
    ∃ r, db.nonces.find? (fun x => decide (x.nonce = n)) = some r ∧
      r.used = false ∧ db1 = markNonceUsed db n := by
  unfold consumeNonce at h
  cases hfind : db.nonces.find? (fun x => decide (x.nonce = n)) with
  | none =>
    rw [hfind] at h
    exact absurd h (by simp)
  | some r =>
    rw [hfind] at h
    dsimp only at h
    by_cases hu : r.used = true
    · rw [if_pos hu] at h
      exact absurd h (by simp)
    · rw [if_neg hu] at h
      by_cases he : decide (t > r.expiresAt) = true
      · rw [if_pos he] at h
        exact absurd h (by simp)
      · rw [if_neg he] at h
        by_cases ha : decide (¬ r.address = a) = true
        · rw [if_pos ha] at h
          exact absurd h (by simp)
        · rw [if_neg ha] at h
          exact ⟨r, rfl, Bool.of_not_eq_true hu, (Except.ok.inj h).symm⟩

theorem consumeNonce_after_markUsed {db : DB} {n : String} {r : NonceRow}
    (hfind : db.nonces.find? (fun x => decide (x.nonce = n)) = some r) :
    ∀ a t, consumeNonce (markNonceUsed db n) n a t = .error .alreadyUsed := by
  intro a t
  unfold consumeNonce
  rw [find?_markNonceUsed hfind]
  simp

theorem consumeSeq_of_used (n : String) :
    ∀ (l : List (String × Nat)) (db : DB),
      (∀ r, db.nonces.find? (fun x => decide (x.nonce = n)) = some r →
        r.used = true) →
      consumeSeq db n l = (0, db) := by
  intro l
  induction l with
  | nil => intro db _; rfl
  | cons p rest ih =>
    obtain ⟨a, t⟩ := p
    intro db h
    have herr : ∃ e, consumeNonce db n a t = .error e := by
      unfold consumeNonce
      cases hfind : db.nonces.find? (fun x => decide (x.nonce = n)) with
      | none => exact ⟨.notFound, rfl⟩
      | some r =>
        refine ⟨.alreadyUsed, ?_⟩
        dsimp only
        rw [if_pos (h r hfind)]
    obtain ⟨e, herr⟩ := herr
    show (match consumeNonce db n a t with
      | .ok db1 =>
        let res := consumeSeq db1 n rest
        (res.1 + 1, res.2)
      | .error _ => consumeSeq db n rest) = (0, db)
    rw [herr]
    exact ih db h

theorem consumeSeq_cons (db : DB) (n a : String) (t : Nat)
    (rest : List (String × Nat)) :
    consumeSeq db n ((a, t) :: rest) =
      match consumeNonce db n a t with
      | .ok db1 =>
        ((consumeSeq db1 n rest).1 + 1, (consumeSeq db1 n rest).2)
      | .error _ => consumeSeq db n rest := rfl

theorem consumeSeq_le_one (n : String) :
    ∀ (l : List (String × Nat)) (db : DB), (consumeSeq db n l).1 ≤ 1 := by
  intro l
  induction l with
  | nil => intro db; exact Nat.zero_le 1
  | cons p rest ih =>
    obtain ⟨a, t⟩ := p
    intro db
    rw [consumeSeq_cons]
    cases hc : consumeNonce db n a t with
    | ok db1 =>
      obtain ⟨r, hfind, _, hdb1⟩ := consumeNonce_ok_inv hc
      have hu2 : ∀ r2,
          db1.nonces.find? (fun x => decide (x.nonce = n)) = some r2 →
          r2.used = true := by
        intro r2 hr2
        rw [hdb1, find?_markNonceUsed hfind] at hr2
        cases hr2
        rfl
      have hz := consumeSeq_of_used n rest db1 hu2
      simp [hz]
    | error e => exact ih db

/-! The claim theorems. -/

/-- C9: the link-status endpoint rejects with 400 every tokenId that is
not an integer within the collection range [0, 2999] — in particular
tokenId 3000 — and for an in-range tokenId reports isLinked together with
the linked EVM address and link timestamp exactly when a LinkedNFT row for
that tokenId exists. -/
theorem C9_linkstatus_range_and_lookup (db : DB) :
    linkStatus db none = .badRequest ∧
    (∀ n : Int, n < 0 ∨ 2999 < n → linkStatus db (some n) = .badRequest) ∧
    linkStatus db (some 3000) = .badRequest ∧
    (∀ n : Int, 0 ≤ n → n ≤ 2999 →
      ((∃ r ∈ db.linkedNFTs, r.tokenId = toString n) →
        ∃ r ∈ db.linkedNFTs, r.tokenId = toString n ∧
          linkStatus db (some n) =
            .ok (toString n) true (some r.evmAddress) (some r.solanaAddress)
              (some r.linkedAt)) ∧
      ((¬ ∃ r ∈ db.linkedNFTs, r.tokenId = toString n) →
        linkStatus db (some n) = .ok (toString n) false none none none)) := by
  refine ⟨rfl, ?_, ?_, ?_⟩
  · intro n h
    unfold linkStatus
    dsimp only
    have hc : (decide (n < 0) || decide (n > 2999)) = true := by
      rcases h with h | h <;> simp [h]
    rw [if_pos hc]
  · unfold linkStatus
    dsimp only
    rw [if_pos (by decide)]
  · intro n h0 h1
    have hc : ¬ ((decide (n < 0) || decide (n > 2999)) = true) := by
      simp only [Bool.or_eq_true, decide_eq_true_eq]
      omega
    constructor
    · rintro ⟨r0, hr0, htok0⟩
      have hsome : (db.linkedNFTs.find?
          (fun r => decide (r.tokenId = toString n))).isSome := by
        rw [List.find?_isSome]
        exact ⟨r0, hr0, by simp [htok0]⟩
      obtain ⟨r, hfind⟩ := Option.isSome_iff_exists.mp hsome
      refine ⟨r, List.mem_of_find?_eq_some hfind, ?_, ?_⟩
      · simpa using List.find?_some hfind
      · unfold linkStatus
        dsimp only
        rw [if_neg hc, hfind]
    · intro hne
      have hnone : db.linkedNFTs.find?
          (fun r => decide (r.tokenId = toString n)) = none := by
        rw [List.find?_eq_none]
        intro r hr
        simp only [decide_eq_true_eq]
        intro htok
        exact hne ⟨r, hr, htok⟩
      unfold linkStatus
      dsimp only
      rw [if_neg hc, hnone]

/-- C9 witness: the range clauses at tokenId 3000 and the lookup clauses
at tokenId 5 against the concrete database holding a link for tokenId 5. -/
theorem C9_linkstatus_witness :
    linkStatus dbAfterFirst (some 3000) = .badRequest ∧
    linkStatus dbAfterFirst (some 5) =
      .ok "5" true (some "e") (some "S") (some 0) := by
  refine ⟨(C9_linkstatus_range_and_lookup dbAfterFirst).2.2.1, ?_⟩
  obtain ⟨r, hr, htok, heq⟩ :=
    ((C9_linkstatus_range_and_lookup dbAfterFirst).2.2.2 5 (by decide)
      (by decide)).1 ⟨⟨"5", "M5", "S", "e", 0, 0⟩, by decide, by decide⟩
  have hrv : r = ⟨"5", "M5", "S", "e", 0, 0⟩ := by
    have : dbAfterFirst.linkedNFTs = [⟨"5", "M5", "S", "e", 0, 0⟩] := by decide
    rw [this] at hr
    simpa using hr
  rw [hrv] at heq
  exact heq

/-- C7: nonce consumption fails with NotFound when the nonce is unknown,
AlreadyUsed when the consumed flag is set, Expired when past the expiry
instant, AddressMismatch when the presenting address differs; on success
it sets used and returns the updated store, after which every further
consume of that nonce fails AlreadyUsed; issuing stores a fixed
five-minute TTL; and across any sequence of consume attempts on one nonce
at most one succeeds. -/
theorem C7_nonce_consume_contract :
    (∀ (db : DB) (n a : String) (t : Nat),
      db.nonces.find? (fun x => decide (x.nonce = n)) = none →
      consumeNonce db n a t = .error .notFound) ∧
    (∀ (db : DB) (n a : String) (t : Nat) (r : NonceRow),
      db.nonces.find? (fun x => decide (x.nonce = n)) = some r →
      r.used = true → consumeNonce db n a t = .error .alreadyUsed) ∧
    (∀ (db : DB) (n a : String) (t : Nat) (r : NonceRow),
      db.nonces.find? (fun x => decide (x.nonce = n)) = some r →
      r.used = false → t > r.expiresAt →
      consumeNonce db n a t = .error .expired) ∧
    (∀ (db : DB) (n a : String) (t : Nat) (r : NonceRow),
      db.nonces.find? (fun x => decide (x.nonce = n)) = some r →
      r.used = false → ¬ t > r.expiresAt → ¬ r.address = a →
      consumeNonce db n a t = .error .addressMismatch) ∧
    (∀ (db : DB) (n a : String) (t : Nat) (r : NonceRow),
      db.nonces.find? (fun x => decide (x.nonce = n)) = some r →
      r.used = false → ¬ t > r.expiresAt → r.address = a →
      consumeNonce db n a t = .ok (markNonceUsed db n) ∧
      ∀ (a2 : String) (t2 : Nat),
        consumeNonce (markNonceUsed db n) n a2 t2 = .error .alreadyUsed) ∧
    (∀ (db : DB) (s a : String) (t : Nat),
      (issueNonce db s a t).nonces.head? =
        some ⟨s, a, t + 5 * 60 * 1000, false, t⟩) ∧
    (∀ (n : String) (l : List (String × Nat)) (db : DB),
      (consumeSeq db n l).1 ≤ 1) := by
  refine ⟨?_, ?_, ?_, ?_, ?_, ?_, ?_⟩
  · intro db n a t hfind
    unfold consumeNonce
    rw [hfind]
  · intro db n a t r hfind hused
    unfold consumeNonce
    rw [hfind]
    dsimp only
    rw [if_pos hused]
  · intro db n a t r hfind hused hexp
    unfold consumeNonce
    rw [hfind]
    dsimp only
    rw [if_neg (by simp [hused]), if_pos (by simpa using hexp)]
  · intro db n a t r hfind hused hexp haddr
    unfold consumeNonce
    rw [hfind]
    dsimp only
    rw [if_neg (by simp [hused]), if_neg (by simpa using hexp),
      if_pos (by simpa using haddr)]
  · intro db n a t r hfind hused hexp haddr
    constructor
    · unfold consumeNonce
      rw [hfind]
      dsimp only
      rw [if_neg (by simp [hused]), if_neg (by simpa using hexp),
        if_neg (by simp [haddr])]
    · exact consumeNonce_after_markUsed hfind
  · intro db s a t
    rfl
  · intro n l db
    exact consumeSeq_le_one n l db

/-- C7 witness: the concrete nonce "N" issued at time 0 consumes once and
then fails AlreadyUsed; three attempts yield exactly one success. -/
theorem C7_nonce_consume_witness :
    consumeNonce dbNonce "N" "S" 0 = .ok (markNonceUsed dbNonce "N") ∧
    consumeNonce (markNonceUsed dbNonce "N") "N" "S" 1 =
      .error .alreadyUsed ∧
    (consumeSeq dbNonce "N" [("S", 0), ("S", 0), ("S", 0)]).1 ≤ 1 := by
  have h := C7_nonce_consume_contract
  obtain ⟨hok, hafter⟩ := h.2.2.2.2.1 dbNonce "N" "S" 0
    ⟨"N", "S", 300000, false, 0⟩ (by decide) (by decide) (by decide)
    (by decide)
  exact ⟨hok, hafter "S" 1, h.2.2.2.2.2.2 "N" [("S", 0), ("S", 0), ("S", 0)]
    dbNonce⟩

/-- C4: the Solana signature check accepts exactly when Ed25519
verification succeeds for at least one candidate encoding from the fixed
list (domain separator + 4-byte LE length + message, the same with a
leading version byte 0, the raw message bytes, domain separator + message
without length, version byte + domain separator + message without length,
domain separator + 4-byte BE length + message); the outcome equals that
disjunction, is invariant under permuting the attempts, and when no
candidate verifies the endpoint responds 400 invalid-signature. -/
theorem C4_fallback_chain_disjunction (enc : String → List Nat)
    (edv : List Nat → List Nat → List Nat → Bool) (message : String)
    (mb sig pkB : List Nat) :
    (solanaVerified enc edv message mb sig pkB = true ↔
      ∃ c ∈ solanaCandidates enc message mb, edv c sig pkB = true) ∧
    (solanaVerified enc edv message mb sig pkB =
      ([enc "solana offchain" ++ le32 (enc message).length ++ enc message,
        [0] ++ enc "solana offchain" ++ le32 (enc message).length ++
          enc message,
        mb,
        enc "solana offchain" ++ enc message,
        [0] ++ enc "solana offchain" ++ enc message,
        enc "solana offchain" ++ be32 (enc message).length ++ enc message
       ].any (fun c => edv c sig pkB))) ∧
    (∀ l2 : List (List Nat), (solanaCandidates enc message mb).Perm l2 →
      l2.any (fun c => edv c sig pkB) =
        solanaVerified enc edv message mb sig pkB) ∧
    (∀ (d58 : String → Option (List Nat))
        (pk : String → Option (List Nat))
        (oracle : Except Unit (List NFTInfo)) (now : Nat) (req : VerifyReq)
        (db : DB) (r : NonceRow),
      (strFalsy req.solAddress || strFalsy req.signature ||
        strFalsy req.message || strFalsy req.nonce) = false →
      db.nonces.find? (fun x => decide (x.nonce = req.nonce.getD "")) =
        some r →
      r.used = false → ¬ now > r.expiresAt →
      r.address = req.solAddress.getD "" →
      pk (req.solAddress.getD "") = some pkB →
      d58 (req.signature.getD "") = some sig → sig.length = 64 →
      req.message.getD "" = message → reqMessageBytes enc req = mb →
      solanaVerified enc edv message mb sig pkB = false →
      verifySolana enc edv d58 pk oracle now req db =
        (.invalidSignature, db)) := by
  refine ⟨List.any_eq_true, ?_, ?_, ?_⟩
  · simp only [solanaVerified, solanaCandidates, List.any_cons, List.any_nil]
    cases edv mb sig pkB <;> simp
  · intro l2 hp
    rw [Bool.eq_iff_iff, List.any_eq_true, solanaVerified, List.any_eq_true]
    constructor
    · rintro ⟨c, hc, he⟩
      exact ⟨c, hp.mem_iff.mpr hc, he⟩
    · rintro ⟨c, hc, he⟩
      exact ⟨c, hp.mem_iff.mp hc, he⟩
  · intro d58 pk oracle now req db r hfields hfind hused hexp haddr hpk
      hd58 hlen hmsg hmb hver
    unfold verifySolana
    rw [if_neg (by simp [hfields]), hfind]
    dsimp only
    rw [if_neg (by simp [hused]), if_neg (by simpa using hexp),
      if_neg (by simp [haddr]), hpk]
    dsimp only
    rw [hd58]
    dsimp only
    rw [if_neg (by simp [hlen]), hmsg, hmb, if_pos (by simp [hver])]

/-- C4 witness: the concrete always-false verifier and concrete request
exercise the handler clause, and the other clauses at concrete inputs. -/
theorem C4_fallback_chain_witness :
    verifySolana encChar edvNever d58Stub pkStub (.ok [⟨"M5", "5"⟩]) 1
      vreqStd dbNonce = (.invalidSignature, dbNonce) := by
  refine (C4_fallback_chain_disjunction encChar edvNever "m"
    (encChar "m") (List.replicate 64 1) (List.replicate 32 2)).2.2.2
    d58Stub pkStub (.ok [⟨"M5", "5"⟩]) 1 vreqStd dbNonce
    ⟨"N", "S", 300000, false, 0⟩ (by decide) (by decide) (by decide)
    (by decide) (by decide) (by decide) (by decide) (by decide) (by decide)
    (by decide) (by decide)

/-- C6 counterexample: a valid, unconsumed, unexpired nonce bound to the
claimed address is presented and signature verification fails; the
request aborts with the invalid-signature error but the nonce row is left
with used = false — the store is returned unchanged — contradicting the
claim that the nonce is left consumed. -/
theorem C6_counterexample :
    verifySolana encChar edvNever d58Stub pkStub (.ok [⟨"M5", "5"⟩]) 1
      vreqStd dbNonce = (.invalidSignature, dbNonce) ∧
    dbNonce.nonces = [⟨"N", "S", 300000, false, 0⟩] := ⟨rfl, rfl⟩

/-- C6 amended: when a valid, unconsumed, unexpired nonce bound to the
claimed Solana address is presented and signature verification fails, the
request aborts with the invalid-signature error and the nonce is left
unconsumed (the store is unchanged), so the same nonce can be presented
again; the nonce is marked used only when signature verification
succeeds. -/
theorem C6_nonce_not_consumed_on_sig_failure
    (enc : String → List Nat) (edv : List Nat → List Nat → List Nat → Bool)
    (d58 : String → Option (List Nat)) (pk : String → Option (List Nat))
    (oracle : Except Unit (List NFTInfo)) (now : Nat) (req : VerifyReq)
    (db : DB) (r : NonceRow) (pkB sig : List Nat)
    (hfields : (strFalsy req.solAddress || strFalsy req.signature ||
      strFalsy req.message || strFalsy req.nonce) = false)
    (hfind : db.nonces.find?
      (fun x => decide (x.nonce = req.nonce.getD "")) = some r)
    (hused : r.used = false) (hexp : ¬ now > r.expiresAt)
    (haddr : r.address = req.solAddress.getD "")
    (hpk : pk (req.solAddress.getD "") = some pkB)
    (hd58 : d58 (req.signature.getD "") = some sig)
    (hlen : sig.length = 64) :
    (solanaVerified enc edv (req.message.getD "")
        (reqMessageBytes enc req) sig pkB = false →
      verifySolana enc edv d58 pk oracle now req db =
        (.invalidSignature, db)) ∧
    (solanaVerified enc edv (req.message.getD "")
        (reqMessageBytes enc req) sig pkB = true →
      (verifySolana enc edv d58 pk oracle now req db).2 =
        markNonceUsed db (req.nonce.getD "")) := by
  constructor
  · intro hver
    unfold verifySolana
    rw [if_neg (by simp [hfields]), hfind]
    dsimp only
    rw [if_neg (by simp [hused]), if_neg (by simpa using hexp),
      if_neg (by simp [haddr]), hpk]
    dsimp only
    rw [hd58]
    dsimp only
    rw [if_neg (by simp [hlen]), if_pos (by simp [hver])]
  · intro hver
    unfold verifySolana
    rw [if_neg (by simp [hfields]), hfind]
    dsimp only
    rw [if_neg (by simp [hused]), if_neg (by simpa using hexp),
      if_neg (by simp [haddr]), hpk]
    dsimp only
    rw [hd58]
    dsimp only
    rw [if_neg (by simp [hlen]), if_neg (by simp [hver])]
    cases oracle with
    | error u => rfl
    | ok nfts =>
      dsimp only
      by_cases hne : nfts.isEmpty = true
      · rw [if_pos hne]
      · rw [if_neg hne]

/-- C6 amended witness: at the concrete nonce store, the failing verifier
leaves the nonce unconsumed and the raw-bytes-accepting verifier marks it
used. -/
theorem C6_nonce_not_consumed_witness :
    verifySolana encChar edvNever d58Stub pkStub (.ok [⟨"M5", "5"⟩]) 1
      vreqStd dbNonce = (.invalidSignature, dbNonce) ∧
    (verifySolana encChar edvRaw d58Stub pkStub (.ok [⟨"M5", "5"⟩]) 1
      vreqBytes dbNonce).2 = markNonceUsed dbNonce "N" := by
  constructor
  · exact (C6_nonce_not_consumed_on_sig_failure encChar edvNever d58Stub
      pkStub (.ok [⟨"M5", "5"⟩]) 1 vreqStd dbNonce
      ⟨"N", "S", 300000, false, 0⟩ (List.replicate 32 2)
      (List.replicate 64 1) (by decide) (by decide) (by decide) (by decide)
      (by decide) (by decide) (by decide) (by decide)).1 (by decide)
  · exact (C6_nonce_not_consumed_on_sig_failure encChar edvRaw d58Stub
      pkStub (.ok [⟨"M5", "5"⟩]) 1 vreqBytes dbNonce
      ⟨"N", "S", 300000, false, 0⟩ (List.replicate 32 2)
      (List.replicate 64 1) (by decide) (by decide) (by decide) (by decide)
      (by decide) (by decide) (by decide) (by decide)).2 (by decide)

/-- C10: the raw-bytes verification candidates check the client-supplied
messageBytes array when present rather than the UTF-8 encoding of the
message field: a signature over arbitrary client-chosen bytes is accepted
whenever the verifier accepts those bytes, and the two concrete requests
below, identical in every field except messageBytes, produce a verified
outcome and an invalid-signature outcome respectively. -/
theorem C10_client_bytes_control_verification :
    (∀ (enc : String → List Nat)
        (edv : List Nat → List Nat → List Nat → Bool) (m : String)
        (bs sig pkB : List Nat),
      edv bs sig pkB = true →
      solanaVerified enc edv m bs sig pkB = true) ∧
    (∀ (enc : String → List Nat) (req : VerifyReq) (bs : List Nat),
      req.messageBytes = some bs → reqMessageBytes enc req = bs) ∧
    verifySolana encChar edvRaw d58Stub pkStub (.ok [⟨"M5", "5"⟩]) 1
      vreqBytes dbNonce = (.verified ["5"], markNonceUsed dbNonce "N") ∧
    verifySolana encChar edvRaw d58Stub pkStub (.ok [⟨"M5", "5"⟩]) 1
      vreqStd dbNonce = (.invalidSignature, dbNonce) := by
  refine ⟨?_, ?_, rfl, rfl⟩
  · intro enc edv m bs sig pkB h
    rw [solanaVerified, List.any_eq_true]
    exact ⟨bs, by simp [solanaCandidates], h⟩
  · intro enc req bs h
    unfold reqMessageBytes
    rw [h]

/-- C10 witness: the general raw-bytes clause applied at the concrete
verifier that accepts exactly the bytes [9, 9]. -/
theorem C10_client_bytes_witness :
    solanaVerified encChar edvRaw "m" [9, 9] (List.replicate 64 1)
      (List.replicate 32 2) = true ∧
    reqMessageBytes encChar vreqBytes = [9, 9] := by
  constructor
  · exact C10_client_bytes_control_verification.1 encChar edvRaw "m" [9, 9]
      (List.replicate 64 1) (List.replicate 32 2) (by decide)
  · exact C10_client_bytes_control_verification.2.1 encChar vreqBytes [9, 9]
      rfl

/-- C1: once a LinkedNFT row binds tokenId T to a pair, no later commit
request removes or rewrites that row (and, the table being
tokenId-unique, no other row for T can appear); and a later commit
request from a different pair that reaches the conflict check with T
among its requested tokenIds fails with 409 naming exactly the
already-linked requested tokenIds, committing none (the state is returned
unchanged). -/
theorem C1_linked_row_immutable_conflict_409
    (recover : String → String → Option String)
    (oracle : Except Unit (List NFTInfo)) (now : Nat) (req : LinkRequest)
    (db : DB) (row : LinkedNFT) (T : String) (sol evm : String)
    (ex : Option WalletLink) (nfts : List NFTInfo)
    (hrow : row ∈ db.linkedNFTs) (hT : row.tokenId = T)
    (hpre : prePhase recover oracle now req db = .ok (sol, evm, ex, nfts))
    (hTreq : T ∈ nfts.map NFTInfo.tokenId)
    (hdiff : ¬ (sol = row.solanaAddress ∧
      evm = lowerStr row.evmAddress)) :
    (∀ (recover2 : String → String → Option String)
        (oracle2 : Except Unit (List NFTInfo)) (now2 : Nat)
        (req2 : LinkRequest) (db2 : DB),
      row ∈ db2.linkedNFTs →
      row ∈ (linkEvm recover2 oracle2 now2 req2 db2).2.linkedNFTs) ∧
    (UniqueTok db →
      ∀ r2 ∈ (linkEvm recover oracle now req db).2.linkedNFTs,
        r2.tokenId = T → r2 = row) ∧
    (∃ ids, linkEvm recover oracle now req db = (.alreadyLinked ids, db) ∧
      T ∈ ids ∧
      ∀ x, x ∈ ids ↔ x ∈ nfts.map NFTInfo.tokenId ∧
        ∃ r ∈ db.linkedNFTs, r.tokenId = x) := by
  have hmemrow : row ∈ alreadyLinkedRows db (nfts.map (fun x => x.tokenId)) := by
    refine List.mem_filter.mpr ⟨hrow, ?_⟩
    simp only [decide_eq_true_eq]
    exact hT ▸ hTreq
  have hne : (alreadyLinkedRows db (nfts.map (fun x => x.tokenId))).isEmpty =
      false := by
    rw [List.isEmpty_eq_false]
    exact List.ne_nil_of_mem hmemrow
  have heq : linkEvm recover oracle now req db =
      (.alreadyLinked
        ((alreadyLinkedRows db (nfts.map (fun x => x.tokenId))).map
          (fun r => r.tokenId)), db) := by
    unfold linkEvm
    rw [linkEvmTwo_of_ok hpre]
    rw [if_pos (by simp [hne])]
  refine ⟨?_, ?_, ?_⟩
  · intro recover2 oracle2 now2 req2 db2 h2
    exact linkEvm_preserves_rows recover2 oracle2 now2 req2 db2 row h2
  · intro hu r2 hr2 htok2
    rw [heq] at hr2
    exact hu r2 hr2 row hrow (htok2.trans hT.symm)
  · refine ⟨_, heq, ?_, ?_⟩
    · exact List.mem_map.mpr ⟨row, hmemrow, hT⟩
    · intro x
      constructor
      · rintro hx
        obtain ⟨r, hr, htok⟩ := List.mem_map.mp hx
        obtain ⟨hrdb, hrT⟩ := List.mem_filter.mp hr
        simp only [decide_eq_true_eq] at hrT
        exact ⟨htok ▸ hrT, r, hrdb, htok⟩
      · rintro ⟨hx, r, hr, htok⟩
        refine List.mem_map.mpr ⟨r, ?_, htok⟩
        refine List.mem_filter.mpr ⟨hr, ?_⟩
        simp only [decide_eq_true_eq]
        exact htok ▸ hx

/-- C1 witness: with tokenId "5" linked to (S, e), the different pair
(S2, f) committing its owned tokenIds "5" and "7" receives 409 naming
"5", and the store is unchanged. -/
theorem C1_linked_row_witness :
    ∃ ids, linkEvm recNone oracleTwo 1 reqOther dbAfterFirst =
      (.alreadyLinked ids, dbAfterFirst) ∧ "5" ∈ ids ∧
      ∀ x, x ∈ ids ↔
        x ∈ [⟨"M5", "5"⟩, ⟨"M7", "7"⟩].map NFTInfo.tokenId ∧
        ∃ r ∈ dbAfterFirst.linkedNFTs, r.tokenId = x :=
  (C1_linked_row_immutable_conflict_409 recNone oracleTwo 1 reqOther
    dbAfterFirst ⟨"5", "M5", "S", "e", 0, 0⟩ "5" "S2" "f" none
    [⟨"M5", "5"⟩, ⟨"M7", "7"⟩] (by decide) (by decide) rfl (by decide)
    (by decide)).2.2

/-- C5: the failing input for the claim that a first-time EVM address
with no EVM signature is rejected 400: a request whose EVM address E5 has
no WalletLink row, carrying no signature and no message but the
client-controlled skipEvmSignature flag, is not rejected — the handler
commits the link and stores an empty audit signature. The source itself
logs a warning that this state should not be reachable. -/
theorem C5_skip_flag_bypasses_first_time_signature :
    findEvmLink DB.empty (lowerStr (reqNoSig.evmAddress.getD "")) = none ∧
    requiresEvmSignature reqNoSig DB.empty = false ∧
    (linkEvm recNone oracleSeven 0 reqNoSig DB.empty).1 =
      .success ["7"] 1 ∧
    (linkEvm recNone oracleSeven 0 reqNoSig DB.empty).2.walletLinks =
      [⟨0, "S5", "e5", ["7"], "", "", 0, 0⟩] := ⟨rfl, rfl, rfl, rfl⟩

/-- C3 counterexample: committing the identical request twice with no
intervening conflicting link: the first call succeeds linking tokenId
"5", but the second call returns 409 already-linked naming "5" instead of
succeeding as a no-op (the final rows are nevertheless those of a single
commit, since the 409 writes nothing). -/
theorem C3_counterexample :
    (linkEvm recNone oracleOne 0 reqSkip DB.empty).1 = .success ["5"] 1 ∧
    (linkEvm recNone oracleOne 1 reqSkip dbAfterFirst).1 =
      .alreadyLinked ["5"] ∧
    (linkEvm recNone oracleOne 1 reqSkip dbAfterFirst).2 = dbAfterFirst :=
  ⟨rfl, rfl, rfl⟩

/-- C3 amended: committing the same request twice yields the same final
LinkedNFT rows as committing it once — the second call writes nothing —
but the second call does not succeed as a no-op: it fails with 409
Conflict naming exactly the request's tokenIds, because the global
pre-check does not exempt tokenIds already linked to the same pair. -/
theorem C3_recommit_conflicts_not_noop
    (recover : String → String → Option String)
    (oracle : Except Unit (List NFTInfo)) (now : Nat) (req : LinkRequest)
    (db : DB) (sol evm : String) (ex : Option WalletLink)
    (nfts : List NFTInfo)
    (hpre : prePhase recover oracle now req db = .ok (sol, evm, ex, nfts))
    (hnd : (nfts.map NFTInfo.tokenId).Nodup)
    (hfresh : ∀ nft ∈ nfts, ∀ r ∈ db.linkedNFTs,
      ¬ r.tokenId = nft.tokenId) :
    ∃ c db1,
      linkEvm recover oracle now req db =
        (.success (nfts.map (fun x => x.tokenId)) c, db1) ∧
      ∀ now2,
        linkNonceCheck req db.nonces now2 (req.solanaAddress.getD "") =
          .ok () →
        ∃ ids, linkEvm recover oracle now2 req db1 =
          (.alreadyLinked ids, db1) ∧
          ∀ x, x ∈ ids ↔ x ∈ nfts.map NFTInfo.tokenId := by
  have halready : alreadyLinkedRows db (nfts.map (fun x => x.tokenId)) = [] := by
    rw [alreadyLinkedRows, List.filter_eq_nil_iff]
    intro r hr
    simp only [decide_eq_true_eq, List.mem_map]
    rintro ⟨nft, hn, htok⟩
    exact hfresh nft hn r hr htok.symm
  obtain ⟨c, db2, hcommit⟩ :=
    commitPhase_ok_of_fresh req now sol evm ex nfts db hnd hfresh
  have heq1 : linkEvm recover oracle now req db =
      (.success (nfts.map (fun x => x.tokenId)) c, db2) := by
    unfold linkEvm
    rw [linkEvmTwo_of_ok hpre, halready]
    simpa using hcommit
  have hstate := commitPhase_state req now sol evm ex nfts db
  rw [hcommit] at hstate
  have hsl := commitPhase_success_linked hcommit
  obtain ⟨hval, allNFTs, ho, hone, hsel⟩ := prePhase_ok_inv hpre
  obtain ⟨hfields, hsol, hevm, hexeq, hnonce⟩ := validatePhase_ok_inv hval
  obtain ⟨w, hw, hwsol, hwevm⟩ := hstate.2.2.2
  have hfind2 : ∃ w2, findEvmLink db2 (lowerStr (req.evmAddress.getD "")) =
      some w2 := by
    rw [← hevm]
    refine Option.isSome_iff_exists.mp ?_
    rw [findEvmLink, List.find?_isSome]
    exact ⟨w, hw, by simp [hwevm]⟩
  obtain ⟨w2, hfind2⟩ := hfind2
  refine ⟨c, db2, heq1, ?_⟩
  intro now2 hnonce2
  have hnonce2b : linkNonceCheck req db2.nonces now2
      (req.solanaAddress.getD "") = .ok () := by
    rw [hstate.1]
    exact hnonce2
  have hval2 : validatePhase recover now2 req db2 =
      .ok (req.solanaAddress.getD "", lowerStr (req.evmAddress.getD ""),
        some w2) :=
    validatePhase_ok_of_linked hfields hfind2 hnonce2b
  have hpre2 : prePhase recover oracle now2 req db2 =
      .ok (req.solanaAddress.getD "", lowerStr (req.evmAddress.getD ""),
        some w2, nfts) :=
    prePhase_ok_of_phases hval2 ho hone hsel
  have hnfts_ne : nfts.isEmpty = false := selectPhase_ok_ne_nil hone hsel
  have hnft0 : ∃ nft0, nft0 ∈ nfts := by
    cases nfts with
    | nil => exact absurd hnfts_ne (by simp)
    | cons a l => exact ⟨a, List.mem_cons_self a l⟩
  obtain ⟨nft0, hnft0⟩ := hnft0
  obtain ⟨r0, hr0, htok0⟩ := hsl.2 nft0 hnft0
  have hmem0 : r0 ∈ alreadyLinkedRows db2 (nfts.map (fun x => x.tokenId)) := by
    refine List.mem_filter.mpr ⟨hr0, ?_⟩
    simp only [decide_eq_true_eq, List.mem_map]
    exact ⟨nft0, hnft0, htok0.symm⟩
  have hne2 : (alreadyLinkedRows db2
      (nfts.map (fun x => x.tokenId))).isEmpty = false := by
    rw [List.isEmpty_eq_false]
    exact List.ne_nil_of_mem hmem0
  refine ⟨(alreadyLinkedRows db2 (nfts.map (fun x => x.tokenId))).map
    (fun r => r.tokenId), ?_, ?_⟩
  · unfold linkEvm
    rw [linkEvmTwo_of_ok hpre2, if_pos (by simp [hne2])]
  · intro x
    constructor
    · intro hx
      obtain ⟨r, hrmem, hrtok⟩ := List.mem_map.mp hx
      obtain ⟨_, hrp⟩ := List.mem_filter.mp hrmem
      simp only [decide_eq_true_eq] at hrp
      exact hrtok ▸ hrp
    · intro hx
      obtain ⟨nft, hn, hntok⟩ := List.mem_map.mp hx
      obtain ⟨r, hrdb, hrtok⟩ := hsl.2 nft hn
      refine List.mem_map.mpr ⟨r, ?_, hrtok.trans hntok⟩
      refine List.mem_filter.mpr ⟨hrdb, ?_⟩
      simp only [decide_eq_true_eq, List.mem_map]
      exact ⟨nft, hn, hrtok.symm⟩

/-- C3 amended witness: the concrete skip-flag request committing tokenId
"5" against the empty store succeeds once, and its immediate identical
re-commit returns 409 naming exactly "5" with the store unchanged. -/
theorem C3_recommit_witness :
    ∃ c db1,
      linkEvm recNone oracleOne 0 reqSkip DB.empty =
        (.success ["5"] c, db1) ∧
      ∀ now2,
        linkNonceCheck reqSkip DB.empty.nonces now2
          (reqSkip.solanaAddress.getD "") = .ok () →
        ∃ ids, linkEvm recNone oracleOne now2 reqSkip db1 =
          (.alreadyLinked ids, db1) ∧
          ∀ x, x ∈ ids ↔ x ∈ (["5"] : List String) :=
  C3_recommit_conflicts_not_noop recNone oracleOne 0 reqSkip DB.empty
    "S" "e" none [⟨"M5", "5"⟩] rfl (by decide)
    (by intro nft hn r hr; simp [DB.empty] at hr)

theorem selectPhase_owns_none {l : List String} {allNFTs : List NFTInfo}
    (hl : 0 < l.length) (hnone : ∀ nft ∈ allNFTs, ¬ nft.tokenId ∈ l) :
    selectPhase (some l) allNFTs = .error .noneSelectedOwned := by
  have hso : selectedOwned l allNFTs = [] := by
    rw [selectedOwned, List.filter_eq_nil_iff]
    intro nft hn
    simp only [decide_eq_true_eq]
    exact hnone nft hn
  unfold selectPhase
  dsimp only
  rw [if_pos hl, if_pos (by simp [hso])]

theorem selectPhase_notOwned {l : List String} {allNFTs : List NFTInfo}
    (hl : 0 < l.length)
    (howns : ∃ nft ∈ allNFTs, nft.tokenId ∈ l)
    (hmiss : ∃ x ∈ l, ∀ nft ∈ allNFTs, ¬ nft.tokenId = x) :
    selectPhase (some l) allNFTs =
      .error (.notOwned (missingIds l allNFTs)) ∧
    (∀ x, x ∈ missingIds l allNFTs ↔
      x ∈ l ∧ ∀ nft ∈ allNFTs, ¬ nft.tokenId = x) ∧
    ¬ missingIds l allNFTs = [] := by
  have hchar : ∀ x, x ∈ missingIds l allNFTs ↔
      x ∈ l ∧ ∀ nft ∈ allNFTs, ¬ nft.tokenId = x := by
    intro x
    rw [missingIds, List.mem_filter]
    constructor
    · rintro ⟨hx, hp⟩
      refine ⟨hx, ?_⟩
      intro nft hn htok
      rw [Bool.not_eq_true', List.any_eq_false] at hp
      refine hp nft ?_ (by simp [htok])
      refine List.mem_filter.mpr ⟨hn, ?_⟩
      simp only [decide_eq_true_eq]
      exact htok ▸ hx
    · rintro ⟨hx, hall⟩
      refine ⟨hx, ?_⟩
      rw [Bool.not_eq_true', List.any_eq_false]
      intro nft hn
      simp only [decide_eq_true_eq]
      exact hall nft (List.mem_filter.mp hn).1
  have howne : (selectedOwned l allNFTs).isEmpty = false := by
    rw [List.isEmpty_eq_false]
    obtain ⟨nft, hn, htok⟩ := howns
    refine List.ne_nil_of_mem (a := nft) ?_
    refine List.mem_filter.mpr ⟨hn, ?_⟩
    simpa using htok
  have hmne : ¬ missingIds l allNFTs = [] := by
    obtain ⟨x, hx, hall⟩ := hmiss
    exact List.ne_nil_of_mem ((hchar x).mpr ⟨hx, hall⟩)
  refine ⟨?_, hchar, hmne⟩
  unfold selectPhase
  dsimp only
  rw [if_pos hl, if_neg (by simp [howne])]
  rw [if_pos (by simpa [List.isEmpty_eq_false] using hmne)]

theorem prePhase_error_of_select {recover : String → String → Option String}
    {oracle : Except Unit (List NFTInfo)} {now : Nat} {req : LinkRequest}
    {db : DB} {sol evm : String} {ex : Option WalletLink}
    {allNFTs : List NFTInfo} {e : LinkResp}
    (hv : validatePhase recover now req db = .ok (sol, evm, ex))
    (ho : oracle = .ok allNFTs) (hne : allNFTs.isEmpty = false)
    (hs : selectPhase req.selectedTokenIds allNFTs = .error e) :
    prePhase recover oracle now req db = .error e := by
  unfold prePhase
  simp [hv, ho, hne, hs]

/-- C8 counterexample: the caller selects only tokenId "1" while owning
only tokenId "2" — owning none of the selection. The request fails with
the 404 none-selected-owned response, not with a 403 naming the missing
tokenIds as the claim states for this case. -/
theorem C8_counterexample :
    (linkEvm recNone oracleDeux 0 reqSelOne DB.empty).1 =
      .noneSelectedOwned ∧
    ¬ (linkEvm recNone oracleDeux 0 reqSelOne DB.empty).1 =
      .notOwned ["1"] := ⟨rfl, by decide⟩

/-- C8 amended: a commit request selecting a non-empty tokenId list that
is not a subset of the oracle-reported ownership fails with 403 naming
exactly the not-owned tokenIds and commits nothing, provided the caller
owns at least one of the selected tokenIds; when the caller owns none of
them the request instead fails with the 404 ownership-changed response,
also committing nothing. -/
theorem C8_not_owned_403_or_owns_none_404
    (recover : String → String → Option String)
    (oracle : Except Unit (List NFTInfo)) (now : Nat) (req : LinkRequest)
    (db : DB) (sol evm : String) (ex : Option WalletLink)
    (l : List String) (allNFTs : List NFTInfo)
    (hv : validatePhase recover now req db = .ok (sol, evm, ex))
    (ho : oracle = .ok allNFTs) (hne : allNFTs.isEmpty = false)
    (hsel : req.selectedTokenIds = some l) (hl : 0 < l.length) :
    ((∃ nft ∈ allNFTs, nft.tokenId ∈ l) →
      (∃ x ∈ l, ∀ nft ∈ allNFTs, ¬ nft.tokenId = x) →
      linkEvm recover oracle now req db =
        (.notOwned (missingIds l allNFTs), db) ∧
      (∀ x, x ∈ missingIds l allNFTs ↔
        x ∈ l ∧ ∀ nft ∈ allNFTs, ¬ nft.tokenId = x) ∧
      ¬ missingIds l allNFTs = []) ∧
    ((∀ nft ∈ allNFTs, ¬ nft.tokenId ∈ l) →
      linkEvm recover oracle now req db = (.noneSelectedOwned, db)) := by
  constructor
  · intro howns hmiss
    obtain ⟨hsp, hchar, hmne⟩ := selectPhase_notOwned hl howns hmiss
    have hperr : prePhase recover oracle now req db =
        .error (.notOwned (missingIds l allNFTs)) :=
      prePhase_error_of_select hv ho hne (by rw [hsel]; exact hsp)
    refine ⟨?_, hchar, hmne⟩
    unfold linkEvm
    exact linkEvmTwo_of_error hperr
  · intro hnone
    have hperr : prePhase recover oracle now req db =
        .error .noneSelectedOwned :=
      prePhase_error_of_select hv ho hne
        (by rw [hsel]; exact selectPhase_owns_none hl hnone)
    unfold linkEvm
    exact linkEvmTwo_of_error hperr

/-- C8 amended witness: selecting ["1", "2"] while owning only "2" gives
403 naming exactly "1" with the store unchanged; selecting ["1"] while
owning only "2" gives the 404 response with the store unchanged. -/
theorem C8_not_owned_witness :
    (linkEvm recNone oracleDeux 0 reqSelMix DB.empty =
      (.notOwned ["1"], DB.empty) ∧
     ¬ missingIds ["1", "2"] [⟨"M2", "2"⟩] = []) ∧
    linkEvm recNone oracleDeux 0 reqSelOne DB.empty =
      (.noneSelectedOwned, DB.empty) := by
  constructor
  · have h := (C8_not_owned_403_or_owns_none_404 recNone oracleDeux 0
      reqSelMix DB.empty "S" "e" none ["1", "2"] [⟨"M2", "2"⟩] rfl rfl
      (by decide) rfl (by decide)).1
      ⟨⟨"M2", "2"⟩, by decide, by decide⟩
      ⟨"1", by decide, by decide⟩
    exact ⟨h.1, h.2.2⟩
  · exact (C8_not_owned_403_or_owns_none_404 recNone oracleDeux 0
      reqSelOne DB.empty "S" "e" none ["1"] [⟨"M2", "2"⟩] rfl rfl
      (by decide) rfl (by decide)).2 (by decide)

/-- C2 counterexample: a race in which the pre-check saw an empty table
but tokenId "5" was committed by another pair before the insert: the
uniqueness violation from the insert step surfaces as the generic 500
Internal server error, not as the 409 Conflict the claim states. -/
theorem C2_counterexample :
    (linkEvmTwo recNone oracleTwo 1 reqOther DB.empty dbAfterFirst).1 =
      .serverError ∧
    ¬ (linkEvmTwo recNone oracleTwo 1 reqOther DB.empty dbAfterFirst).1 =
      .alreadyLinked ["5"] := ⟨rfl, by decide⟩

/-- C2 amended: under any interleaving of inserts (the only primitive
writes to LinkedNFT), the storage-level unique constraint preserves
tokenId uniqueness, so at most one (WalletLink, EVM address) pair ever
owns a tokenId; but a uniqueness-violation error raised by the insert
step of a racing commit is caught by the route's catch-all and surfaces
as the generic 500 response, not as the 409 Conflict of the pre-check. -/
theorem C2_storage_unique_but_violation_500 :
    (∀ (ops : List LinkedNFT) (db : DB), UniqueTok db →
      UniqueTok (applyInserts db ops) ∧
      ∀ (T : String), ∀ r1 ∈ (applyInserts db ops).linkedNFTs,
        ∀ r2 ∈ (applyInserts db ops).linkedNFTs,
        r1.tokenId = T → r2.tokenId = T →
        r1.evmAddress = r2.evmAddress ∧
        r1.walletLinkId = r2.walletLinkId ∧
        r1.solanaAddress = r2.solanaAddress) ∧
    (∀ (recover : String → String → Option String)
        (oracle : Except Unit (List NFTInfo)) (now : Nat)
        (req : LinkRequest) (dbPre dbC : DB) (sol evm : String)
        (ex : Option WalletLink) (nfts : List NFTInfo),
      prePhase recover oracle now req dbPre = .ok (sol, evm, ex, nfts) →
      alreadyLinkedRows dbPre (nfts.map (fun x => x.tokenId)) = [] →
      findPairLink dbC sol evm = none →
      (∃ nft ∈ nfts, ∃ r ∈ dbC.linkedNFTs, r.tokenId = nft.tokenId) →
      (linkEvmTwo recover oracle now req dbPre dbC).1 = .serverError) := by
  constructor
  · intro ops db hu
    have hu2 := uniqueTok_applyInserts ops db hu
    refine ⟨hu2, ?_⟩
    intro T r1 h1 r2 h2 ht1 ht2
    have heq := hu2 r1 h1 r2 h2 (ht1.trans ht2.symm)
    rw [heq]
    exact ⟨rfl, rfl, rfl⟩
  · intro recover oracle now req dbPre dbC sol evm ex nfts hpre hclean
      hpair hrace
    rw [linkEvmTwo_of_ok hpre, hclean]
    simp only [List.isEmpty_nil, Bool.not_true, Bool.false_eq_true,
      if_false]
    exact commitPhase_serverError_of_raced req now sol evm ex nfts dbC
      hpair hrace

/-- C2 amended witness: two conflicting raw inserts of tokenId "5" leave
a unique table, and the concrete raced commit of tokenIds "5" and "7"
returns the 500 response. -/
theorem C2_storage_unique_witness :
    UniqueTok (applyInserts DB.empty
      [⟨"5", "M5", "S", "e", 0, 0⟩, ⟨"5", "M9", "S2", "f", 1, 1⟩]) ∧
    (linkEvmTwo recNone oracleTwo 1 reqOther DB.empty dbAfterFirst).1 =
      .serverError := by
  constructor
  · exact (C2_storage_unique_but_violation_500.1
      [⟨"5", "M5", "S", "e", 0, 0⟩, ⟨"5", "M9", "S2", "f", 1, 1⟩]
      DB.empty (by intro r1 h1 r2 h2 _; simp [DB.empty] at h1)).1
  · exact C2_storage_unique_but_violation_500.2 recNone oracleTwo 1
      reqOther DB.empty dbAfterFirst "S2" "f" none
      [⟨"M5", "5"⟩, ⟨"M7", "7"⟩] rfl rfl rfl
      ⟨⟨"M5", "5"⟩, by decide, ⟨"5", "M5", "S", "e", 0, 0⟩, by decide, rfl⟩

end CollectEVM
